import Mathlib

/-!
Shallow embedding of the D3D12 command processor of the Xenia emulator
(`src/xenia/gpu/d3d12/d3d12_command_processor.h`): the submission/frame
scheduler, the command-allocator pool, the barrier batcher, the scratch
buffer and deferred-deletion queue, and the descriptor binding cache.

The repository provides only the header, so the data model (field names,
initial values, constants) is translated from the header, while the bodies
of the operations are modelled from the specification, as marked on each
definition.
-/

namespace Xenia

/-- Number of queued frames, `kQueueFrames` in d3d12_command_processor.h (line 179). -/
def kQueueFrames : Nat := 3

/-- Scratch buffer growth increment, `kScratchBufferSizeIncrement` (line 344): 16 MiB. -/
def kScratchBufferSizeIncrement : Nat := 16 * 1024 * 1024

/-- Command allocator record, `D3D12CommandProcessor::CommandAllocator` (lines 280-284):
a pooled recordable-command backing object tagged with the submission id of its most
recent use.  The host object is modelled by a numeric identity. -/
structure CommandAllocator where
  id : Nat
  last_usage_submission : Nat
deriving DecidableEq

/-- The two intrusive allocator queues of the pool (header lines 285-288:
`command_allocator_writable_first_/last_`, `command_allocator_submitted_first_/last_`),
modelled as lists ordered head = oldest, plus a counter for fresh host allocators. -/
structure PoolQueues where
  writable : List CommandAllocator
  submitted : List CommandAllocator
  next_id : Nat
deriving DecidableEq

/-- Modelled from the spec: the reclaim scan of `AcquireWritable` - "scan the submitted
queue's oldest entries and reclaim any whose tagged submission id is <= completed-submission
counter, moving them to writable".  The scan stops at the first entry that is still
in flight, as the submitted queue is ordered by submission id. -/
def reclaimCompleted (completed : Nat) (q : PoolQueues) : PoolQueues :=
  { q with
    writable := q.writable ++ q.submitted.takeWhile
      (fun a => decide (a.last_usage_submission ≤ completed))
    submitted := q.submitted.dropWhile
      (fun a => decide (a.last_usage_submission ≤ completed)) }

/-- Modelled from the spec: `AcquireWritable` of the command allocator pool (the body of
the pool logic is not under src/, only the queue declarations are) - "pop from writable
queue if non-empty; otherwise, scan the submitted queue's oldest entries and reclaim any
whose tagged submission id is <= completed-submission counter, moving them to writable;
if still none available, create a new allocator".  A newly created allocator has never
been used, so its tag is 0. -/
def acquireWritable (completed : Nat) (q : PoolQueues) : CommandAllocator × PoolQueues :=
  match q.writable with
  | a :: rest => (a, { q with writable := rest })
  | [] =>
    let q2 := reclaimCompleted completed q
    match q2.writable with
    | a :: rest => (a, { q2 with writable := rest })
    | [] =>
      ({ id := q2.next_id, last_usage_submission := 0 },
       { q2 with next_id := q2.next_id + 1 })

/-- Modelled from the spec: `Retire(allocator, submission_id)` - "after a submission
closes, move its allocator ... to the submitted queue tagged with submission_id". -/
def retire (a : CommandAllocator) (submission_id : Nat) (q : PoolQueues) : PoolQueues :=
  { q with submitted := q.submitted ++ [{ a with last_usage_submission := submission_id }] }

/-- Resource barrier record (`barriers_`, header line 336, holds `D3D12_RESOURCE_BARRIER`
entries): a state transition, an aliasing barrier or a UAV (read/write hazard) barrier.
Resources and resource states are modelled by numeric identities. -/
inductive Barrier where
  | transition (resource old_state new_state subresource : Nat)
  | aliasing (old_resource new_resource : Nat)
  | uav (resource : Nat)
deriving DecidableEq

/-- Deferred-free record `BufferForDeletion` (header lines 338-341): a resource handle
plus the submission id at which it was last used. -/
structure BufferForDeletion where
  buffer : Nat
  last_usage_submission : Nat
deriving DecidableEq

/-- State of the command processor: direct translation of the fields of
`D3D12CommandProcessor` that the claims are about (header lines 263-348), with the
ring `closed_frame_submissions_[kQueueFrames]` as a length-3 list, plus two ghost
histories (the barriers recorded to the command stream by flushes, and the closing
submission ids of every closed frame - the ring keeps only the last three). -/
structure ProcState where
  submission_open : Bool
  submission_current : Nat
  submission_completed : Nat
  frame_open : Bool
  frame_current : Nat
  frame_completed : Nat
  closed_frame_submissions : List Nat
  pool : PoolQueues
  current_alloc : Option CommandAllocator
  barriers : List Barrier
  barrier_stream : List Barrier
  buffers_for_deletion : List BufferForDeletion
  scratch_buffer : Option Nat
  scratch_buffer_size : Nat
  scratch_buffer_state : Nat
  scratch_buffer_used : Bool
  next_buffer_id : Nat
  closed_frame_history : List Nat
deriving DecidableEq

/-- Initial state, from the field initializers of the header (lines 263-348):
`submission_open_ = false`, `submission_current_ = 1`, `submission_completed_ = 0`,
`frame_open_ = false`, `frame_current_ = 1`, `frame_completed_ = 0`,
`closed_frame_submissions_[kQueueFrames] = {}`, empty pools, `scratch_buffer_size_ = 0`,
`scratch_buffer_used_ = false`. -/
def initState : ProcState where
  submission_open := false
  submission_current := 1
  submission_completed := 0
  frame_open := false
  frame_current := 1
  frame_completed := 0
  closed_frame_submissions := [0, 0, 0]
  pool := { writable := [], submitted := [], next_id := 0 }
  current_alloc := none
  barriers := []
  barrier_stream := []
  buffers_for_deletion := []
  scratch_buffer := none
  scratch_buffer_size := 0
  scratch_buffer_state := 0
  scratch_buffer_used := false
  next_buffer_id := 0
  closed_frame_history := []

/-- Translation of `PushTransitionBarrier` (header lines 84-87): appends a transition
barrier record to the unsubmitted batch `barriers_`. -/
def pushTransitionBarrier (resource old_state new_state subresource : Nat)
    (s : ProcState) : ProcState :=
  { s with barriers := s.barriers ++ [Barrier.transition resource old_state new_state subresource] }

/-- Translation of `PushAliasingBarrier` (header lines 88-89). -/
def pushAliasingBarrier (old_resource new_resource : Nat) (s : ProcState) : ProcState :=
  { s with barriers := s.barriers ++ [Barrier.aliasing old_resource new_resource] }

/-- Translation of `PushUAVBarrier` (header line 90). -/
def pushUAVBarrier (resource : Nat) (s : ProcState) : ProcState :=
  { s with barriers := s.barriers ++ [Barrier.uav resource] }

/-- Modelled from the spec: `SubmitBarriers` (declared header line 91; body not under
src/) - "atomically records the entire batch as a single barrier command on the
currently open submission's command stream and clears the batch"; a no-op when the
batch is empty. -/
def submitBarriers (s : ProcState) : ProcState :=
  if s.barriers.isEmpty then s
  else { s with barrier_stream := s.barrier_stream ++ s.barriers, barriers := [] }

/-- Modelled from the spec: the submission-closing half of `EndSubmission` (declared
header lines 225-237; body not under src/) - "closes the currently open submission -
submits recorded commands to the GPU queue, signals the fence to the new submission
value, moves the command allocator from writable to submitted queue tagged with that
value"; pending barriers are flushed with the submission. -/
def closeSubmission (s : ProcState) : ProcState :=
  if s.submission_open then
    { s with
      submission_open := false
      submission_current := s.submission_current + 1
      pool := match s.current_alloc with
        | some a => retire a s.submission_current s.pool
        | none => s.pool
      current_alloc := none
      barrier_stream := s.barrier_stream ++ s.barriers
      barriers := [] }
  else s

/-- Modelled from the spec: the frame-closing half of `EndSubmission` - end-of-frame
housekeeping: the ring entry at `frame_current_ % kQueueFrames` is set to the id of the
last submitted submission, the frame counter advances and the frame is no longer open.
The ghost history records the same closing submission id. -/
def closeFrame (s : ProcState) : ProcState :=
  if s.frame_open then
    { s with
      closed_frame_submissions :=
        s.closed_frame_submissions.set (s.frame_current % kQueueFrames)
          (s.submission_current - 1)
      frame_current := s.frame_current + 1
      frame_open := false
      closed_frame_history := s.closed_frame_history ++ [s.submission_current - 1] }
  else s

/-- Modelled from the spec: `EndSubmission(is_swap)` (declared header lines 234-237).
The parameter `submit_ok` is the outcome of the underlying queue-submit call; per the
spec, on failure the call "returns failure without mutating state ... leaving the
submission open for the caller to retry or abort".  If `is_swap` is true the frame is
closed "no matter whether the submission has already been closed" (header comment,
lines 225-228). -/
def endSubmission (is_swap submit_ok : Bool) (s : ProcState) : Bool × ProcState :=
  if s.submission_open && !submit_ok then (false, s)
  else
    let s1 := closeSubmission s
    (true, if is_swap then closeFrame s1 else s1)

/-- Modelled from the spec: `BeginSubmission(is_guest_command)` (declared header line
233; body not under src/).  If a submission is open and no frame needs opening, it is a
no-op.  Otherwise the fence is read (`fence_value` is the value observed, clamped
monotonically); when opening a frame, "if the ring of outstanding frame-closing
submission ids is full, the oldest entry's submission must already be completed or the
caller must wait" - the wait is modelled by raising the completed counter to the ring
entry at `frame_current_ % kQueueFrames`.  Deferred-deletion buffers whose last-usage
submission has completed are released, a writable command allocator is acquired if a
submission is being opened, and the frame is marked open if requested. -/
def beginSubmission (is_guest_command : Bool) (fence_value : Nat) (s : ProcState) :
    ProcState :=
  let is_opening_frame := is_guest_command && !s.frame_open
  if s.submission_open && !is_opening_frame then s
  else
    let completed0 := max s.submission_completed fence_value
    let completed :=
      if is_opening_frame then
        max completed0 (s.closed_frame_submissions.getD (s.frame_current % kQueueFrames) 0)
      else completed0
    let fc :=
      if is_opening_frame then max s.frame_current kQueueFrames - kQueueFrames
      else s.frame_completed
    let s1 : ProcState :=
      { s with
        submission_completed := completed
        frame_completed := fc
        buffers_for_deletion := s.buffers_for_deletion.dropWhile
          (fun b => decide (b.last_usage_submission ≤ completed)) }
    let s2 : ProcState :=
      if s1.submission_open then s1
      else
        let ar := acquireWritable completed s1.pool
        { s1 with submission_open := true, pool := ar.2, current_alloc := some ar.1 }
    if is_opening_frame then { s2 with frame_open := true } else s2

/-- Modelled from the spec: `AwaitAllSubmissionsCompletion` (declared header line 238) -
"blocks the calling thread until the fence has reached the current submission counter";
every submitted submission (ids up to `submission_current_ - 1`) is then completed. -/
def awaitAllSubmissionsCompletion (s : ProcState) : ProcState :=
  { s with submission_completed := max s.submission_completed (s.submission_current - 1) }

/-- Round `value` up to the next multiple of `alignment` (`xe::align` as used by the
scratch buffer growth policy). -/
def alignUp (value alignment : Nat) : Nat :=
  (value + alignment - 1) / alignment * alignment

/-- Modelled from the spec: `RequestScratchGPUBuffer(size, state)` (declared header
lines 116-117; body not under src/) - a second outstanding checkout is a usage error
(returns no buffer); "if the existing scratch buffer is not checked out and is >= size,
returns it directly, recording the requested starting state as a barrier if it differs
from the buffer's tracked state; otherwise grows the buffer to the next multiple of a
fixed increment (16 MiB) at or above size, discarding the old one via the
deferred-deletion queue" tagged with the current submission id. -/
def requestScratchGPUBuffer (size state : Nat) (s : ProcState) :
    Option Nat × ProcState :=
  if s.scratch_buffer_used then (none, s)
  else
    match s.scratch_buffer with
    | some buffer =>
      if size ≤ s.scratch_buffer_size then
        (some buffer,
         { s with
           barriers :=
             if s.scratch_buffer_state ≠ state then
               s.barriers ++ [Barrier.transition buffer s.scratch_buffer_state state 0]
             else s.barriers
           scratch_buffer_state := state
           scratch_buffer_used := true })
      else
        let new_size := alignUp size kScratchBufferSizeIncrement
        (some s.next_buffer_id,
         { s with
           scratch_buffer := some s.next_buffer_id
           scratch_buffer_size := new_size
           scratch_buffer_state := state
           scratch_buffer_used := true
           buffers_for_deletion :=
             s.buffers_for_deletion ++ [⟨buffer, s.submission_current⟩]
           next_buffer_id := s.next_buffer_id + 1 })
    | none =>
      let new_size := alignUp size kScratchBufferSizeIncrement
      (some s.next_buffer_id,
       { s with
         scratch_buffer := some s.next_buffer_id
         scratch_buffer_size := new_size
         scratch_buffer_state := state
         scratch_buffer_used := true
         next_buffer_id := s.next_buffer_id + 1 })

/-- Modelled from the spec: `ReleaseScratchGPUBuffer(buffer, new_state)` (declared
header lines 121-122) - "clears checkout and updates tracked state". -/
def releaseScratchGPUBuffer (new_state : Nat) (s : ProcState) : ProcState :=
  { s with scratch_buffer_used := false, scratch_buffer_state := new_state }

/-- One operation of the command processor's public lifecycle surface, for quantifying
over call sequences. -/
inductive Op where
  | beginSubmission (is_guest_command : Bool) (fence_value : Nat)
  | endSubmission (is_swap submit_ok : Bool)
  | awaitAll
  | pushTransition (resource old_state new_state subresource : Nat)
  | pushAliasing (old_resource new_resource : Nat)
  | pushUAV (resource : Nat)
  | submitBarriers
  | requestScratch (size state : Nat)
  | releaseScratch (new_state : Nat)

/-- Apply one operation to the state (the result value of fallible operations is
dropped; `endSubmission` with a failed submit leaves the state unchanged). -/
def applyOp (s : ProcState) : Op → ProcState
  | .beginSubmission g f => beginSubmission g f s
  | .endSubmission w ok => (endSubmission w ok s).2
  | .awaitAll => awaitAllSubmissionsCompletion s
  | .pushTransition r o n sub => pushTransitionBarrier r o n sub s
  | .pushAliasing o n => pushAliasingBarrier o n s
  | .pushUAV r => pushUAVBarrier r s
  | .submitBarriers => submitBarriers s
  | .requestScratch size state => (requestScratchGPUBuffer size state s).2
  | .releaseScratch ns => releaseScratchGPUBuffer ns s

/-- Environment validity of an operation: a fence read can only observe values the
queue has signaled, which are at most `submission_current - 1`. -/
def validOp (op : Op) (s : ProcState) : Bool :=
  match op with
  | .beginSubmission _ f => decide (f < s.submission_current)
  | _ => true

/-- States reachable from the initial state by valid operations. -/
inductive Reachable : ProcState → Prop where
  | init : Reachable initState
  | step (s : ProcState) (op : Op) : Reachable s → validOp op s = true →
      Reachable (applyOp s op)

/-! ### Command allocator pool call sequences (claim C1) -/

/-- Completed-submission counter together with the allocator pool queues, the state
seen by pool-level call sequences. -/
structure PoolState where
  queues : PoolQueues
  completed : Nat
deriving DecidableEq

/-- One pool-level operation: an `AcquireWritable` call, a `Retire` call, or an
advance of the completed-submission counter observed from the fence. -/
inductive PoolOp where
  | acquire
  | retire (a : CommandAllocator) (submission_id : Nat)
  | fenceAdvance (value : Nat)

/-- Apply one pool-level operation (the allocator returned by an acquire is dropped). -/
def applyPoolOp (s : PoolState) : PoolOp → PoolState
  | .acquire => { s with queues := (acquireWritable s.completed s.queues).2 }
  | .retire a submission_id => { s with queues := retire a submission_id s.queues }
  | .fenceAdvance v => { s with completed := max s.completed v }

/-- Initial pool state: both queues empty, completed counter 0 (header initializers). -/
def initPoolState : PoolState where
  queues := { writable := [], submitted := [], next_id := 0 }
  completed := 0

/-- Run a sequence of pool-level operations from the initial pool state. -/
def runPool (ops : List PoolOp) : PoolState :=
  ops.foldl applyPoolOp initPoolState

/-- Pool invariant: every allocator sitting in the writable queue has its last-usage
submission already completed. -/
def PoolInv (s : PoolState) : Prop :=
  ∀ a ∈ s.queues.writable, a.last_usage_submission ≤ s.completed

lemma mem_writable_reclaimCompleted {completed : Nat} {q : PoolQueues}
    {a : CommandAllocator} (ha : a ∈ (reclaimCompleted completed q).writable)
    (h : ∀ b ∈ q.writable, b.last_usage_submission ≤ completed) :
    a.last_usage_submission ≤ completed := by
  simp only [reclaimCompleted, List.mem_append] at ha
  rcases ha with ha | ha
  · exact h a ha
  · have := List.mem_takeWhile_imp ha
    simpa using this

lemma acquireWritable_result_le (completed : Nat) (q : PoolQueues)
    (h : ∀ a ∈ q.writable, a.last_usage_submission ≤ completed) :
    (acquireWritable completed q).1.last_usage_submission ≤ completed := by
  unfold acquireWritable
  cases hw : q.writable with
  | cons a rest => exact h a (by rw [hw]; exact List.mem_cons_self a rest)
  | nil =>
    simp only
    cases ht : (reclaimCompleted completed q).writable with
    | cons b rest =>
      simp only
      exact mem_writable_reclaimCompleted (ht ▸ List.mem_cons_self b rest) h
    | nil => simp only [Nat.zero_le]

lemma acquireWritable_writable_le (completed : Nat) (q : PoolQueues)
    (h : ∀ a ∈ q.writable, a.last_usage_submission ≤ completed) :
    ∀ a ∈ (acquireWritable completed q).2.writable, a.last_usage_submission ≤ completed := by
  unfold acquireWritable
  cases hw : q.writable with
  | cons b rest =>
    intro a ha
    simp only at ha
    exact h a (by rw [hw]; exact List.mem_cons_of_mem b ha)
  | nil =>
    simp only
    cases ht : (reclaimCompleted completed q).writable with
    | cons b rest =>
      intro a ha
      simp only at ha
      exact mem_writable_reclaimCompleted
        (ht ▸ List.mem_cons_of_mem b ha) h
    | nil =>
      intro a ha
      simp at ha

lemma poolInv_applyPoolOp (s : PoolState) (op : PoolOp) (h : PoolInv s) :
    PoolInv (applyPoolOp s op) := by
  cases op with
  | acquire =>
    intro a ha
    exact acquireWritable_writable_le s.completed s.queues h a ha
  | retire b submission_id =>
    intro a ha
    exact h a ha
  | fenceAdvance v =>
    intro a ha
    exact le_trans (h a ha) (le_max_left _ _)

lemma poolInv_foldl (ops : List PoolOp) (s : PoolState) (h : PoolInv s) :
    PoolInv (ops.foldl applyPoolOp s) := by
  induction ops generalizing s with
  | nil => exact h
  | cons op rest ih => exact ih (applyPoolOp s op) (poolInv_applyPoolOp s op h)

lemma poolInv_runPool (ops : List PoolOp) : PoolInv (runPool ops) := by
  have base : PoolInv initPoolState := by
    intro a ha
    simp [initPoolState] at ha
  exact poolInv_foldl ops initPoolState base

/-- C1: for every sequence of `AcquireWritable`/`Retire`/fence-advance operations on the
command allocator pool, the allocator returned by a further `AcquireWritable` has its
tagged last-usage submission id at most the completed-submission counter - an allocator
is never handed out for new recording while the fence value recorded at its last
submission is still unsignaled. -/
theorem acquireWritable_never_in_flight (ops : List PoolOp) :
    (acquireWritable (runPool ops).completed (runPool ops).queues).1.last_usage_submission ≤
      (runPool ops).completed :=
  acquireWritable_result_le (runPool ops).completed (runPool ops).queues
    (poolInv_runPool ops)

/-! ### Submission failure leaves state unchanged (claim C5) -/

/-- C5: if the underlying queue-submit call fails while a submission is open,
`EndSubmission` returns failure and leaves the entire scheduler state unchanged - the
submission stays open, counters and allocator queues are untouched, so the caller can
retry or abort; a submission is never partially committed. -/
theorem endSubmission_fail_no_mutation (s : ProcState) (is_swap : Bool)
    (h : s.submission_open = true) :
    endSubmission is_swap false s = (false, s) := by
  simp [endSubmission, h]

/-- Witness for C5 at a concrete reachable state with an open submission. -/
theorem endSubmission_fail_no_mutation_witness :
    (beginSubmission true 0 initState).submission_open = true ∧
    endSubmission true false (beginSubmission true 0 initState) =
      (false, beginSubmission true 0 initState) :=
  ⟨by decide,
   endSubmission_fail_no_mutation (beginSubmission true 0 initState) true (by decide)⟩

/-! ### Swap with no open submission still closes the frame (claim C6) -/

/-- C6: calling `EndSubmission` with `is_swap = true` when no submission is open but a
frame is open still closes the frame without error: it returns success, marks the frame
closed, advances the closed-frame-submission ring at slot `frame_current % kQueueFrames`
with the last submitted submission id, and advances the frame counter, while the
submission counter is untouched. -/
theorem endSubmission_swap_closes_frame (s : ProcState) (submit_ok : Bool)
    (h1 : s.submission_open = false) (h2 : s.frame_open = true) :
    (endSubmission true submit_ok s).1 = true ∧
    (endSubmission true submit_ok s).2.frame_open = false ∧
    (endSubmission true submit_ok s).2.frame_current = s.frame_current + 1 ∧
    (endSubmission true submit_ok s).2.closed_frame_submissions =
      s.closed_frame_submissions.set (s.frame_current % kQueueFrames)
        (s.submission_current - 1) ∧
    (endSubmission true submit_ok s).2.submission_current = s.submission_current := by
  simp [endSubmission, closeSubmission, closeFrame, h1, h2]

/-- Witness for C6 at a concrete state: a frame left open after its submission was
closed mid-frame. -/
theorem endSubmission_swap_closes_frame_witness :
    ((endSubmission false true (beginSubmission true 0 initState)).2.submission_open = false ∧
     (endSubmission false true (beginSubmission true 0 initState)).2.frame_open = true) ∧
    (endSubmission true true
        (endSubmission false true (beginSubmission true 0 initState)).2).1 = true ∧
    (endSubmission true true
        (endSubmission false true (beginSubmission true 0 initState)).2).2.frame_open = false ∧
    (endSubmission true true
        (endSubmission false true (beginSubmission true 0 initState)).2).2.frame_current =
      (endSubmission false true (beginSubmission true 0 initState)).2.frame_current + 1 ∧
    (endSubmission true true
        (endSubmission false true (beginSubmission true 0 initState)).2).2.closed_frame_submissions =
      (endSubmission false true (beginSubmission true 0 initState)).2.closed_frame_submissions.set
        ((endSubmission false true (beginSubmission true 0 initState)).2.frame_current % kQueueFrames)
        ((endSubmission false true (beginSubmission true 0 initState)).2.submission_current - 1) ∧
    (endSubmission true true
        (endSubmission false true (beginSubmission true 0 initState)).2).2.submission_current =
      (endSubmission false true (beginSubmission true 0 initState)).2.submission_current :=
  ⟨⟨by decide, by decide⟩,
   endSubmission_swap_closes_frame
     (endSubmission false true (beginSubmission true 0 initState)).2 true
     (by decide) (by decide)⟩

/-! ### Scratch buffer growth (claims C3, C4) -/

lemma alignUp_ge (value alignment : Nat) (h : 0 < alignment) :
    value ≤ alignUp value alignment := by
  unfold alignUp
  have h2 := Nat.div_add_mod (value + alignment - 1) alignment
  have h3 : (value + alignment - 1) % alignment < alignment := Nat.mod_lt _ h
  have h4 : (value + alignment - 1) / alignment * alignment =
      alignment * ((value + alignment - 1) / alignment) := Nat.mul_comm _ _
  omega

/-- Scratch-buffer well-formedness: when no scratch buffer exists the tracked size is
0; this holds initially and is preserved by every operation. -/
def ScratchInv (s : ProcState) : Prop :=
  s.scratch_buffer = none → s.scratch_buffer_size = 0

lemma scratchInv_requestScratch (size state : Nat) (s : ProcState) (h : ScratchInv s) :
    ScratchInv (requestScratchGPUBuffer size state s).2 := by
  unfold ScratchInv requestScratchGPUBuffer
  split
  · exact h
  · split
    · next buf heq =>
      split
      · intro hn
        exact Option.noConfusion (heq.symm.trans hn)
      · intro hn
        exact Option.noConfusion hn
    · intro hn
      exact Option.noConfusion hn

lemma scratchInv_applyOp (s : ProcState) (op : Op) (h : ScratchInv s) :
    ScratchInv (applyOp s op) := by
  cases op with
  | beginSubmission g f =>
    show ScratchInv (beginSubmission g f s)
    simp only [ScratchInv, beginSubmission] at h ⊢
    repeat' split
    all_goals exact h
  | endSubmission w ok =>
    show ScratchInv (endSubmission w ok s).2
    simp only [ScratchInv, endSubmission, closeSubmission, closeFrame] at h ⊢
    repeat' split
    all_goals exact h
  | awaitAll => exact h
  | pushTransition r o n sub => exact h
  | pushAliasing o n => exact h
  | pushUAV r => exact h
  | submitBarriers =>
    show ScratchInv (submitBarriers s)
    simp only [ScratchInv, submitBarriers] at h ⊢
    split <;> exact h
  | requestScratch size state => exact scratchInv_requestScratch size state s h
  | releaseScratch ns => exact h

lemma scratchInv_foldl (ops : List Op) (s : ProcState) (h : ScratchInv s) :
    ScratchInv (ops.foldl applyOp s) := by
  induction ops generalizing s with
  | nil => exact h
  | cons op rest ih => exact ih (applyOp s op) (scratchInv_applyOp s op h)

lemma scratchInv_run (ops : List Op) : ScratchInv (ops.foldl applyOp initState) :=
  scratchInv_foldl ops initState (fun _ => rfl)

lemma alignUp_mod (value alignment : Nat) :
    alignUp value alignment % alignment = 0 := by
  unfold alignUp
  exact Nat.mul_mod_left _ _

lemma alignUp_min (value alignment m : Nat) (h : 0 < alignment)
    (hm : m % alignment = 0) (hv : value ≤ m) :
    alignUp value alignment ≤ m := by
  obtain ⟨k, hk⟩ := Nat.dvd_of_mod_eq_zero hm
  subst hk
  unfold alignUp
  have hq : (value + alignment - 1) / alignment ≤ k := by
    have h1 : value + alignment - 1 ≤ alignment * k + (alignment - 1) := by omega
    have h2 : (value + alignment - 1) / alignment ≤
        (alignment * k + (alignment - 1)) / alignment := Nat.div_le_div_right h1
    have h3 : (alignment * k + (alignment - 1)) / alignment = k := by
      rw [Nat.add_comm, Nat.add_mul_div_left _ _ h,
        Nat.div_eq_of_lt (by omega : alignment - 1 < alignment)]
      omega
    omega
  calc (value + alignment - 1) / alignment * alignment
      ≤ k * alignment := Nat.mul_le_mul_right _ hq
    _ = alignment * k := Nat.mul_comm _ _

lemma scratch_size_le_requestScratch (size state : Nat) (s : ProcState)
    (hinv : ScratchInv s) :
    s.scratch_buffer_size ≤ (requestScratchGPUBuffer size state s).2.scratch_buffer_size := by
  have hal : size ≤ alignUp size kScratchBufferSizeIncrement :=
    alignUp_ge size kScratchBufferSizeIncrement (by decide)
  unfold requestScratchGPUBuffer
  split
  · exact Nat.le_refl _
  · split
    · split
      · exact Nat.le_refl _
      · next hsz =>
        show s.scratch_buffer_size ≤ alignUp size kScratchBufferSizeIncrement
        omega
    · next heq =>
      show s.scratch_buffer_size ≤ alignUp size kScratchBufferSizeIncrement
      rw [hinv heq]
      exact Nat.zero_le _

lemma scratch_size_le_applyOp (s : ProcState) (op : Op) (hinv : ScratchInv s) :
    s.scratch_buffer_size ≤ (applyOp s op).scratch_buffer_size := by
  cases op with
  | beginSubmission g f =>
    show s.scratch_buffer_size ≤ (beginSubmission g f s).scratch_buffer_size
    simp only [beginSubmission]
    repeat' split
    all_goals exact Nat.le_refl _
  | endSubmission w ok =>
    show s.scratch_buffer_size ≤ (endSubmission w ok s).2.scratch_buffer_size
    simp only [endSubmission, closeSubmission, closeFrame]
    repeat' split
    all_goals exact Nat.le_refl _
  | awaitAll => exact Nat.le_refl _
  | pushTransition r o n sub => exact Nat.le_refl _
  | pushAliasing o n => exact Nat.le_refl _
  | pushUAV r => exact Nat.le_refl _
  | submitBarriers =>
    show s.scratch_buffer_size ≤ (submitBarriers s).scratch_buffer_size
    simp only [submitBarriers]
    split <;> exact Nat.le_refl _
  | requestScratch size state => exact scratch_size_le_requestScratch size state s hinv
  | releaseScratch ns => exact Nat.le_refl _

lemma scratch_size_le_foldl (ops : List Op) (s : ProcState) (hinv : ScratchInv s) :
    s.scratch_buffer_size ≤ (ops.foldl applyOp s).scratch_buffer_size := by
  induction ops generalizing s with
  | nil => exact Nat.le_refl _
  | cons op rest ih =>
    exact le_trans (scratch_size_le_applyOp s op hinv)
      (ih (applyOp s op) (scratchInv_applyOp s op hinv))

lemma requestScratch_size_ge (size state buffer : Nat) (s : ProcState)
    (h : (requestScratchGPUBuffer size state s).1 = some buffer) :
    size ≤ (requestScratchGPUBuffer size state s).2.scratch_buffer_size := by
  have hal : size ≤ alignUp size kScratchBufferSizeIncrement :=
    alignUp_ge size kScratchBufferSizeIncrement (by decide)
  by_cases hu : s.scratch_buffer_used
  · simp [requestScratchGPUBuffer, hu] at h
  · cases hb : s.scratch_buffer with
    | none => simpa [requestScratchGPUBuffer, hu, hb] using hal
    | some buf =>
      by_cases hsz : size ≤ s.scratch_buffer_size
      · simp [requestScratchGPUBuffer, hu, hb, hsz]
      · simpa [requestScratchGPUBuffer, hu, hb, hsz] using hal

/-- C3: over every sequence of command processor operations starting at the initial
state (in particular scratch request/release calls), the scratch buffer size never
shrinks, and every request that returns a buffer leaves the tracked buffer size at
least the requested size. -/
theorem scratch_buffer_monotone (ops1 ops2 : List Op) :
    (ops1.foldl applyOp initState).scratch_buffer_size ≤
      ((ops1 ++ ops2).foldl applyOp initState).scratch_buffer_size ∧
    ∀ size state buffer,
      (requestScratchGPUBuffer size state (ops1.foldl applyOp initState)).1 = some buffer →
      size ≤ (requestScratchGPUBuffer size state
          (ops1.foldl applyOp initState)).2.scratch_buffer_size := by
  constructor
  · rw [List.foldl_append]
    exact scratch_size_le_foldl ops2 _ (scratchInv_run ops1)
  · intro size state buffer h
    exact requestScratch_size_ge size state buffer _ h

/-- Witness for C3: a concrete run in which the size grows from 0 to 16 MiB and a
successful 10 MiB request yields a buffer of tracked size at least 10 MiB. -/
theorem scratch_buffer_monotone_witness :
    ([Op.beginSubmission true 0].foldl applyOp initState).scratch_buffer_size ≤
      (([Op.beginSubmission true 0] ++
        [Op.requestScratch (10 * 1024 * 1024) 1]).foldl applyOp initState).scratch_buffer_size ∧
    (requestScratchGPUBuffer (10 * 1024 * 1024) 1
        ([Op.beginSubmission true 0].foldl applyOp initState)).1 = some 0 ∧
    10 * 1024 * 1024 ≤
      (requestScratchGPUBuffer (10 * 1024 * 1024) 1
        ([Op.beginSubmission true 0].foldl applyOp initState)).2.scratch_buffer_size :=
  ⟨(scratch_buffer_monotone [Op.beginSubmission true 0]
      [Op.requestScratch (10 * 1024 * 1024) 1]).1,
   by decide,
   (scratch_buffer_monotone [Op.beginSubmission true 0]
      [Op.requestScratch (10 * 1024 * 1024) 1]).2
     (10 * 1024 * 1024) 1 0 (by decide)⟩

/-- Scenario state for C4: a submission and frame are opened on the fresh processor. -/
def c4_state1 : ProcState := beginSubmission true 0 initState

/-- First scratch request of the C4 scenario: 10 MiB while no buffer exists. -/
def c4_req1 : Option Nat × ProcState :=
  requestScratchGPUBuffer (10 * 1024 * 1024) 1 c4_state1

/-- The buffer is released, then 20 MiB are requested. -/
def c4_req2 : Option Nat × ProcState :=
  requestScratchGPUBuffer (20 * 1024 * 1024) 1 (releaseScratchGPUBuffer 1 c4_req1.2)

/-- The frame is swapped out (submission 1 closes) and a new frame begins while the
fence still reads 0: submission 1 is not yet completed. -/
def c4_state2 : ProcState := beginSubmission true 0 (endSubmission true true c4_req2.2).2

/-- The second submission closes and the fence is observed at 1: submission 1 is now
completed. -/
def c4_state3 : ProcState := beginSubmission false 1 (endSubmission false true c4_state2).2

/-- The concrete run of the scratch growth rule: a first 10 MiB request creates a
16 MiB buffer; a subsequent 20 MiB request grows it to 32 MiB and queues the old
buffer for deletion tagged with the current submission id (1); the old buffer stays
queued while the completed-submission counter is below that id and is released by the
first fence observation at or above it. -/
theorem scratch_growth_scenario :
    c4_req1.2.scratch_buffer_size = 16 * 1024 * 1024 ∧
    c4_req1.1 = some 0 ∧
    c4_req1.2.buffers_for_deletion = [] ∧
    c4_req2.2.scratch_buffer_size = 32 * 1024 * 1024 ∧
    c4_req2.2.submission_current = 1 ∧
    c4_req2.2.buffers_for_deletion = [⟨0, 1⟩] ∧
    c4_state2.submission_completed = 0 ∧
    c4_state2.buffers_for_deletion = [⟨0, 1⟩] ∧
    c4_state3.submission_completed = 1 ∧
    c4_state3.buffers_for_deletion = [] := by
  decide

/-- Either `BeginSubmission` leaves the state untouched (open submission, no frame to
open), or its resulting deferred-deletion queue is the old queue with the prefix of
entries whose last-usage submission has reached the resulting completed counter
removed. -/
lemma beginSubmission_deletion_spec (g : Bool) (fv : Nat) (t : ProcState) :
    beginSubmission g fv t = t ∨
    ∃ c, (beginSubmission g fv t).submission_completed = c ∧
      (beginSubmission g fv t).buffers_for_deletion =
        t.buffers_for_deletion.dropWhile
          (fun b => decide (b.last_usage_submission ≤ c)) := by
  simp only [beginSubmission]
  split
  · exact Or.inl rfl
  · right
    cases hg : (g && !t.frame_open) <;> cases ho : t.submission_open <;>
      exact ⟨_, rfl, rfl⟩

/-- No operation ever releases a deferred-deletion entry before the completed
submission counter has reached the entry's tagged last-usage submission id. -/
lemma deletion_only_after_completed (op : Op) (t : ProcState) (e : BufferForDeletion)
    (he : e ∈ t.buffers_for_deletion)
    (hnot : e ∉ (applyOp t op).buffers_for_deletion) :
    e.last_usage_submission ≤ (applyOp t op).submission_completed := by
  cases op with
  | beginSubmission g fv =>
    have hnot2 : e ∉ (beginSubmission g fv t).buffers_for_deletion := hnot
    show e.last_usage_submission ≤ (beginSubmission g fv t).submission_completed
    rcases beginSubmission_deletion_spec g fv t with hcase | ⟨c, hc1, hc2⟩
    · rw [hcase] at hnot2
      exact absurd he hnot2
    · rw [hc1]
      rw [hc2] at hnot2
      have hmem : e ∈ t.buffers_for_deletion.takeWhile
          (fun b => decide (b.last_usage_submission ≤ c)) := by
        have hsplit := List.takeWhile_append_dropWhile
          (p := fun b => decide (b.last_usage_submission ≤ c))
          (l := t.buffers_for_deletion)
        rw [← hsplit] at he
        rcases List.mem_append.mp he with h1 | h1
        · exact h1
        · exact absurd h1 hnot2
      simpa using List.mem_takeWhile_imp hmem
  | endSubmission w ok =>
    exfalso
    apply hnot
    show e ∈ (endSubmission w ok t).2.buffers_for_deletion
    simp only [endSubmission, closeSubmission, closeFrame]
    repeat' split
    all_goals exact he
  | awaitAll => exact absurd he hnot
  | pushTransition r o n sub => exact absurd he hnot
  | pushAliasing o n => exact absurd he hnot
  | pushUAV r => exact absurd he hnot
  | submitBarriers =>
    exfalso
    apply hnot
    show e ∈ (submitBarriers t).buffers_for_deletion
    unfold submitBarriers
    split
    · exact he
    · exact he
  | requestScratch size2 state2 =>
    exfalso
    apply hnot
    show e ∈ (requestScratchGPUBuffer size2 state2 t).2.buffers_for_deletion
    unfold requestScratchGPUBuffer
    split
    · exact he
    · split
      · split
        · exact he
        · exact List.mem_append.mpr (Or.inl he)
      · exact he
  | releaseScratch ns => exact absurd he hnot

/-- C4: whenever `RequestScratchGPUBuffer(size, state)` finds the scratch buffer not
checked out and absent or smaller than `size`, the new tracked size is exactly the
smallest multiple of the 16 MiB increment at or above `size` (it is a multiple, at
least `size`, and at most every such multiple - e.g. 10 MiB yields 16 MiB and 20 MiB
yields 32 MiB); if a buffer existed, it is not freed but appended to the
deferred-deletion queue tagged with the current submission id; and no operation ever
releases a queued buffer before the completed-submission counter has reached its
tagged submission id. -/
theorem scratch_growth_rule (size state : Nat) (s : ProcState)
    (hused : s.scratch_buffer_used = false)
    (hgrow : s.scratch_buffer = none ∨ s.scratch_buffer_size < size) :
    ((requestScratchGPUBuffer size state s).2.scratch_buffer_size =
        alignUp size kScratchBufferSizeIncrement ∧
      (requestScratchGPUBuffer size state s).2.scratch_buffer_size %
          kScratchBufferSizeIncrement = 0 ∧
      size ≤ (requestScratchGPUBuffer size state s).2.scratch_buffer_size ∧
      ∀ m, m % kScratchBufferSizeIncrement = 0 → size ≤ m →
        (requestScratchGPUBuffer size state s).2.scratch_buffer_size ≤ m) ∧
    (∀ b, s.scratch_buffer = some b →
      (requestScratchGPUBuffer size state s).2.buffers_for_deletion =
        s.buffers_for_deletion ++ [⟨b, s.submission_current⟩]) ∧
    (∀ (op : Op) (t : ProcState) (e : BufferForDeletion),
      e ∈ t.buffers_for_deletion →
      e ∉ (applyOp t op).buffers_for_deletion →
      e.last_usage_submission ≤ (applyOp t op).submission_completed) := by
  have ha : 0 < kScratchBufferSizeIncrement := by decide
  have heq : (requestScratchGPUBuffer size state s).2.scratch_buffer_size =
      alignUp size kScratchBufferSizeIncrement := by
    cases hb : s.scratch_buffer with
    | none => simp [requestScratchGPUBuffer, hused, hb]
    | some b =>
      have hlt : s.scratch_buffer_size < size := by
        rcases hgrow with hg | hg
        · rw [hb] at hg
          exact absurd hg (by simp)
        · exact hg
      simp [requestScratchGPUBuffer, hused, hb, Nat.not_le.mpr hlt]
  refine ⟨⟨heq, ?_, ?_, ?_⟩, ?_, deletion_only_after_completed⟩
  · rw [heq]
    exact alignUp_mod size kScratchBufferSizeIncrement
  · rw [heq]
    exact alignUp_ge size kScratchBufferSizeIncrement ha
  · intro m hm hv
    rw [heq]
    exact alignUp_min size kScratchBufferSizeIncrement m ha hm hv
  · intro b hb
    have hlt : s.scratch_buffer_size < size := by
      rcases hgrow with hg | hg
      · rw [hb] at hg
        exact absurd hg (by simp)
      · exact hg
    simp [requestScratchGPUBuffer, hused, hb, Nat.not_le.mpr hlt]

/-- The C4 scenario state holding the queued old buffer, right before the fence is
observed at 1. -/
def c4_state2b : ProcState := (endSubmission false true c4_state2).2

/-- Witness for C4: the 20 MiB request at the state whose 16 MiB buffer was just
released grows the buffer to exactly 32 MiB and queues the old buffer tagged with
submission 1, and the `BeginSubmission` observing the fence at 1 releases that entry
only because the completed counter has reached its tag. -/
theorem scratch_growth_rule_witness :
    ((releaseScratchGPUBuffer 1 c4_req1.2).scratch_buffer_used = false ∧
      (releaseScratchGPUBuffer 1 c4_req1.2).scratch_buffer_size < 20 * 1024 * 1024) ∧
    (requestScratchGPUBuffer (20 * 1024 * 1024) 1
        (releaseScratchGPUBuffer 1 c4_req1.2)).2.scratch_buffer_size =
      32 * 1024 * 1024 ∧
    (requestScratchGPUBuffer (20 * 1024 * 1024) 1
        (releaseScratchGPUBuffer 1 c4_req1.2)).2.buffers_for_deletion =
      (releaseScratchGPUBuffer 1 c4_req1.2).buffers_for_deletion ++
        [⟨0, (releaseScratchGPUBuffer 1 c4_req1.2).submission_current⟩] ∧
    ((⟨0, 1⟩ : BufferForDeletion) ∈ c4_state2b.buffers_for_deletion ∧
      (⟨0, 1⟩ : BufferForDeletion) ∉
        (applyOp c4_state2b (Op.beginSubmission false 1)).buffers_for_deletion) ∧
    (⟨0, 1⟩ : BufferForDeletion).last_usage_submission ≤
      (applyOp c4_state2b (Op.beginSubmission false 1)).submission_completed :=
  ⟨⟨by decide, by decide⟩,
   ((scratch_growth_rule (20 * 1024 * 1024) 1 (releaseScratchGPUBuffer 1 c4_req1.2)
       (by decide) (Or.inr (by decide))).1.1).trans (by decide),
   (scratch_growth_rule (20 * 1024 * 1024) 1 (releaseScratchGPUBuffer 1 c4_req1.2)
       (by decide) (Or.inr (by decide))).2.1 0 (by decide),
   ⟨by decide, by decide⟩,
   (scratch_growth_rule (20 * 1024 * 1024) 1 (releaseScratchGPUBuffer 1 c4_req1.2)
       (by decide) (Or.inr (by decide))).2.2 (Op.beginSubmission false 1) c4_state2b
     ⟨0, 1⟩ (by decide) (by decide)⟩

/-! ### Barrier batch flush order and exactly-once emission (claim C7) -/

/-- One barrier-batcher operation: a push of one of the three barrier kinds, or a
`SubmitBarriers` flush. -/
inductive BarrierOp where
  | pushTransition (resource old_state new_state subresource : Nat)
  | pushAliasing (old_resource new_resource : Nat)
  | pushUAV (resource : Nat)
  | submitBarriers

/-- Apply one barrier-batcher operation. -/
def applyBarrierOp (s : ProcState) : BarrierOp → ProcState
  | .pushTransition r o n sub => pushTransitionBarrier r o n sub s
  | .pushAliasing o n => pushAliasingBarrier o n s
  | .pushUAV r => pushUAVBarrier r s
  | .submitBarriers => submitBarriers s

/-- The barrier appended by an operation, if it is a push. -/
def barrierOfOp : BarrierOp → Option Barrier
  | .pushTransition r o n sub => some (Barrier.transition r o n sub)
  | .pushAliasing o n => some (Barrier.aliasing o n)
  | .pushUAV r => some (Barrier.uav r)
  | .submitBarriers => none

/-- All barriers appended by a sequence of barrier operations, in call order. -/
def pushedBarriers (ops : List BarrierOp) : List Barrier :=
  ops.filterMap barrierOfOp

/-- Run a sequence of barrier operations from a given state. -/
def runBarrierOps (ops : List BarrierOp) (s : ProcState) : ProcState :=
  ops.foldl applyBarrierOp s

lemma applyBarrierOp_stream (s : ProcState) (op : BarrierOp) :
    (applyBarrierOp s op).barrier_stream ++ (applyBarrierOp s op).barriers =
      s.barrier_stream ++ s.barriers ++ (barrierOfOp op).toList := by
  cases op with
  | pushTransition r o n sub =>
    simp [applyBarrierOp, pushTransitionBarrier, barrierOfOp]
  | pushAliasing o n =>
    simp [applyBarrierOp, pushAliasingBarrier, barrierOfOp]
  | pushUAV r =>
    simp [applyBarrierOp, pushUAVBarrier, barrierOfOp]
  | submitBarriers =>
    simp only [applyBarrierOp, submitBarriers, barrierOfOp, Option.toList_none,
      List.append_nil]
    split
    · rfl
    · simp

lemma runBarrierOps_stream (ops : List BarrierOp) (s : ProcState) :
    (runBarrierOps ops s).barrier_stream ++ (runBarrierOps ops s).barriers =
      s.barrier_stream ++ s.barriers ++ pushedBarriers ops := by
  induction ops generalizing s with
  | nil => simp [runBarrierOps, pushedBarriers]
  | cons op rest ih =>
    have h1 := applyBarrierOp_stream s op
    have h2 := ih (applyBarrierOp s op)
    simp only [runBarrierOps, List.foldl_cons] at h2 ⊢
    rw [h2, h1]
    simp [pushedBarriers, List.filterMap_cons]
    cases hop : barrierOfOp op <;> simp [List.append_assoc]

lemma submitBarriers_flush (s : ProcState) :
    (submitBarriers s).barriers = [] ∧
    (submitBarriers s).barrier_stream = s.barrier_stream ++ s.barriers := by
  unfold submitBarriers
  split
  · next h =>
    simp only [List.isEmpty_iff] at h
    simp [h]
  · simp

/-- C7: for every sequence of barrier pushes interleaved with `SubmitBarriers` flushes,
the barriers recorded to the command stream followed by the still-pending batch are
exactly the pushed barriers in insertion (FIFO) order appended to the starting
contents - so no appended barrier is lost, reordered, or emitted by more than one
flush - and a flush records exactly the pending batch on the stream and clears it. -/
theorem barrier_batch_fifo_exactly_once (ops : List BarrierOp) (s : ProcState) :
    (runBarrierOps ops s).barrier_stream ++ (runBarrierOps ops s).barriers =
      s.barrier_stream ++ s.barriers ++ pushedBarriers ops ∧
    (applyBarrierOp (runBarrierOps ops s) BarrierOp.submitBarriers).barriers = [] ∧
    (applyBarrierOp (runBarrierOps ops s) BarrierOp.submitBarriers).barrier_stream =
      (runBarrierOps ops s).barrier_stream ++ (runBarrierOps ops s).barriers :=
  ⟨runBarrierOps_stream ops s,
   (submitBarriers_flush (runBarrierOps ops s)).1,
   (submitBarriers_flush (runBarrierOps ops s)).2⟩

/-! ### List helper lemmas for the scheduler invariant -/

lemma getD_set_self (l : List Nat) (i a : Nat) (h : i < l.length) :
    (l.set i a).getD i 0 = a := by
  induction l generalizing i with
  | nil => simp at h
  | cons b t ih =>
    cases i with
    | zero => rfl
    | succ j => exact ih j (Nat.lt_of_succ_lt_succ h)

lemma getD_set_ne (l : List Nat) (i j a : Nat) (h : i ≠ j) :
    (l.set i a).getD j 0 = l.getD j 0 := by
  induction l generalizing i j with
  | nil => rfl
  | cons b t ih =>
    cases i with
    | zero =>
      cases j with
      | zero => exact absurd rfl h
      | succ k => rfl
    | succ m =>
      cases j with
      | zero => rfl
      | succ k => exact ih m k (fun he => h (by rw [he]))

lemma getD_mem (l : List Nat) (i : Nat) (h : i < l.length) : l.getD i 0 ∈ l := by
  induction l generalizing i with
  | nil => simp at h
  | cons b t ih =>
    cases i with
    | zero => exact List.mem_cons_self b t
    | succ j => exact List.mem_cons_of_mem b (ih j (Nat.lt_of_succ_lt_succ h))

lemma getD_append_left (l1 l2 : List Nat) (i : Nat) (h : i < l1.length) :
    (l1 ++ l2).getD i 0 = l1.getD i 0 := by
  induction l1 generalizing i with
  | nil => simp at h
  | cons b t ih =>
    cases i with
    | zero => rfl
    | succ j => exact ih j (Nat.lt_of_succ_lt_succ h)

lemma getD_append_length (l : List Nat) (a : Nat) :
    (l ++ [a]).getD l.length 0 = a := by
  induction l with
  | nil => rfl
  | cons b t ih => exact ih

lemma countP_le_of_prefix_false (l : List Nat) (p : Nat → Bool) (k : Nat)
    (h : ∀ i, i < k → p (l.getD i 0) = false) :
    l.countP p ≤ l.length - k := by
  induction l generalizing k with
  | nil => simp
  | cons b t ih =>
    cases k with
    | zero => simpa using List.countP_le_length (p := p) (l := b :: t)
    | succ m =>
      have hb : p b = false := h 0 (Nat.succ_pos m)
      have hstep : List.countP p (b :: t) = List.countP p t := by
        simp [List.countP_cons, hb]
      rw [hstep]
      have hrec := ih m (fun i hi => h (i + 1) (Nat.succ_lt_succ hi))
      simpa using hrec

/-! ### Scheduler invariant (claims C2 and C10) -/

/-- The scheduler-related fields of the state, gathered as one view so that
operations not touching the scheduler are dealt with uniformly. -/
structure SchedView where
  submission_current : Nat
  submission_completed : Nat
  frame_open : Bool
  frame_current : Nat
  ring : List Nat
  history : List Nat
deriving DecidableEq

/-- Project the scheduler fields out of the state. -/
def schedView (s : ProcState) : SchedView where
  submission_current := s.submission_current
  submission_completed := s.submission_completed
  frame_open := s.frame_open
  frame_current := s.frame_current
  ring := s.closed_frame_submissions
  history := s.closed_frame_history

/-- 0 while a frame is open, 1 otherwise: the completion guarantee reaches one frame
further back right after a close, until the next open re-establishes it. -/
def openBonus : Bool → Nat
  | true => 0
  | false => 1

/-- The inductive scheduler invariant: the submission counter is positive and ahead of
the completed counter; the ring has length `kQueueFrames` and holds only ids of past
submissions; the ghost history has one entry per closed frame; the ring entry for each
of the last three closed frames is that frame's closing submission id; and every closed
frame except the last two (three, while no frame is open after a close) has its closing
submission completed. -/
structure InvCore (v : SchedView) : Prop where
  one_le_current : 1 ≤ v.submission_current
  completed_lt : v.submission_completed < v.submission_current
  ring_length : v.ring.length = 3
  ring_lt : ∀ x ∈ v.ring, x < v.submission_current
  history_length : v.history.length + 1 = v.frame_current
  ring_history : ∀ f, 1 ≤ f → f ≤ v.history.length → v.history.length ≤ f + 2 →
    v.ring.getD (f % 3) 0 = v.history.getD (f - 1) 0
  history_completed : ∀ i,
    i + 3 + openBonus v.frame_open ≤ v.history.length →
    v.history.getD i 0 ≤ v.submission_completed

/-- The scheduler invariant on processor states. -/
abbrev SchedInv (s : ProcState) : Prop := InvCore (schedView s)

lemma schedInv_of_view_eq (s1 s2 : ProcState) (he : schedView s1 = schedView s2)
    (h : SchedInv s2) : SchedInv s1 := by
  show InvCore (schedView s1)
  rw [he]
  exact h

lemma invCore_closeSubmission (s : ProcState) (h : SchedInv s) :
    SchedInv (closeSubmission s) := by
  unfold closeSubmission
  split
  · refine ⟨?_, ?_, h.ring_length, ?_, h.history_length, h.ring_history,
      h.history_completed⟩
    · exact le_trans h.one_le_current (Nat.le_succ _)
    · exact Nat.lt_succ_of_lt h.completed_lt
    · intro x hx
      exact Nat.lt_succ_of_lt (h.ring_lt x hx)
  · exact h

/-- The invariant fields restated over the raw state, for direct use in proofs. -/
lemma schedInv_fields (s : ProcState) (h : SchedInv s) :
    1 ≤ s.submission_current ∧
    s.submission_completed < s.submission_current ∧
    s.closed_frame_submissions.length = 3 ∧
    (∀ x ∈ s.closed_frame_submissions, x < s.submission_current) ∧
    s.closed_frame_history.length + 1 = s.frame_current ∧
    (∀ f, 1 ≤ f → f ≤ s.closed_frame_history.length →
      s.closed_frame_history.length ≤ f + 2 →
      s.closed_frame_submissions.getD (f % 3) 0 =
        s.closed_frame_history.getD (f - 1) 0) ∧
    (∀ i, i + 3 + openBonus s.frame_open ≤ s.closed_frame_history.length →
      s.closed_frame_history.getD i 0 ≤ s.submission_completed) :=
  ⟨h.one_le_current, h.completed_lt, h.ring_length, h.ring_lt, h.history_length,
   h.ring_history, h.history_completed⟩

lemma invCore_closeFrame (s : ProcState) (h : SchedInv s) :
    SchedInv (closeFrame s) := by
  obtain ⟨hcur, hclt, hringlen, hringlt, hn, hrh, hhc⟩ := schedInv_fields s h
  unfold closeFrame kQueueFrames
  split
  · next hopen =>
    refine ⟨h.one_le_current, h.completed_lt, ?_, ?_, ?_, ?_, ?_⟩ <;>
      simp only [schedView]
    · rw [List.length_set]
      exact hringlen
    · intro x hx
      rcases List.mem_or_eq_of_mem_set hx with hx2 | hx2
      · exact hringlt x hx2
      · omega
    · rw [List.length_append]
      simp only [List.length_singleton]
      omega
    · -- ring_history for the grown history
      intro f hf1 hf2 hf3
      simp only [List.length_append, List.length_singleton] at hf2 hf3
      by_cases hftop : f = s.closed_frame_history.length + 1
      · have hidx : f % 3 = s.frame_current % 3 := by omega
        rw [hidx, getD_set_self _ _ _ (by rw [hringlen]; omega)]
        have hfi : f - 1 = s.closed_frame_history.length := by omega
        rw [hfi, getD_append_length]
      · have hfle : f ≤ s.closed_frame_history.length := by omega
        have hne : s.frame_current % 3 ≠ f % 3 := by omega
        rw [getD_set_ne _ _ _ _ hne, getD_append_left _ _ _ (by omega),
          hrh f hf1 hfle (by omega)]
    · -- history_completed with the frame now closed
      intro i hi
      simp only [List.length_append, List.length_singleton, openBonus] at hi
      have hlt : i < s.closed_frame_history.length := by omega
      rw [getD_append_left _ _ _ hlt]
      apply hhc i
      rw [hopen]
      simp only [openBonus]
      omega
  · exact h

lemma invCore_awaitAll (s : ProcState) (h : SchedInv s) :
    SchedInv (awaitAllSubmissionsCompletion s) := by
  obtain ⟨hcur, hclt, _, _, _, _, _⟩ := schedInv_fields s h
  refine ⟨h.one_le_current, ?_, h.ring_length, h.ring_lt, h.history_length,
    h.ring_history, ?_⟩
  · show max s.submission_completed (s.submission_current - 1) < s.submission_current
    omega
  · intro i hi
    exact le_trans (h.history_completed i hi) (le_max_left _ _)

lemma begin_history_completed_aux (s : ProcState) (h : SchedInv s)
    (hopen : s.frame_open = false) (fv : Nat) (i : Nat)
    (hi : i + 3 ≤ s.closed_frame_history.length) :
    s.closed_frame_history.getD i 0 ≤
      max (max s.submission_completed fv)
        (s.closed_frame_submissions.getD (s.frame_current % 3) 0) := by
  obtain ⟨hcur, hclt, hringlen, hringlt, hn, hrh, hhc⟩ := schedInv_fields s h
  by_cases hcase : i + 4 ≤ s.closed_frame_history.length
  · have hold : s.closed_frame_history.getD i 0 ≤ s.submission_completed := by
      apply hhc i
      rw [hopen]
      simp only [openBonus]
      omega
    exact le_trans hold (le_trans (le_max_left _ _) (le_max_left _ _))
  · -- the third-newest closed frame: its closing id is exactly the awaited ring entry
    have hring := hrh (i + 1) (by omega) (by omega) (by omega)
    have hidx : (i + 1) % 3 = s.frame_current % 3 := by omega
    rw [hidx] at hring
    simp only [Nat.add_sub_cancel] at hring
    rw [← hring]
    exact le_max_right _ _

/-- How `BeginSubmission` transforms the scheduler view: a no-op on an open submission
when no frame needs opening; otherwise the completed counter is raised by the fence
read (and by the frame-ring wait when a frame opens), and the frame is marked open when
requested. -/
lemma schedView_beginSubmission (g : Bool) (fv : Nat) (s : ProcState) :
    schedView (beginSubmission g fv s) =
      if s.submission_open && !(g && !s.frame_open) then schedView s
      else
        { schedView s with
          submission_completed :=
            if g && !s.frame_open then
              max (max s.submission_completed fv)
                (s.closed_frame_submissions.getD (s.frame_current % 3) 0)
            else max s.submission_completed fv
          frame_open := if g && !s.frame_open then true else s.frame_open } := by
  simp only [beginSubmission, kQueueFrames]
  split
  · next hcond => simp [hcond]
  · next hcond =>
    cases hg : (g && !s.frame_open) <;> cases ho : s.submission_open <;>
      simp [schedView, hg, ho]

lemma invCore_beginSubmission (g : Bool) (fv : Nat) (s : ProcState)
    (hf : fv < s.submission_current) (h : SchedInv s) :
    SchedInv (beginSubmission g fv s) := by
  obtain ⟨hcur, hclt, hringlen, hringlt, hn, hrh, hhc⟩ := schedInv_fields s h
  show InvCore (schedView (beginSubmission g fv s))
  rw [schedView_beginSubmission g fv s]
  split
  · exact h
  · cases hg : (g && !s.frame_open) with
    | false =>
      refine ⟨h.one_le_current, ?_, h.ring_length, h.ring_lt, h.history_length,
        h.ring_history, ?_⟩
      · show max s.submission_completed fv < s.submission_current
        omega
      · intro i hi
        exact le_trans (h.history_completed i hi) (le_max_left _ _)
    | true =>
      have hopen : s.frame_open = false := by
        revert hg
        cases g <;> cases s.frame_open <;> simp
      refine ⟨h.one_le_current, ?_, h.ring_length, h.ring_lt, h.history_length,
        h.ring_history, ?_⟩
      · show max (max s.submission_completed fv)
            (s.closed_frame_submissions.getD (s.frame_current % 3) 0) <
          s.submission_current
        have h2 : s.closed_frame_submissions.getD (s.frame_current % 3) 0 <
            s.submission_current := by
          apply hringlt
          exact getD_mem _ _ (by rw [hringlen]; exact Nat.mod_lt _ (by norm_num))
        omega
      · intro i hi
        exact begin_history_completed_aux s h hopen fv i (by simpa [openBonus] using hi)

lemma schedView_submitBarriers (s : ProcState) :
    schedView (submitBarriers s) = schedView s := by
  unfold submitBarriers
  split <;> rfl

lemma schedView_requestScratch (size state : Nat) (s : ProcState) :
    schedView (requestScratchGPUBuffer size state s).2 = schedView s := by
  unfold requestScratchGPUBuffer
  split
  · rfl
  · split
    · split <;> rfl
    · rfl

lemma schedInv_applyOp (s : ProcState) (op : Op) (hv : validOp op s = true)
    (h : SchedInv s) : SchedInv (applyOp s op) := by
  cases op with
  | beginSubmission g f =>
    exact invCore_beginSubmission g f s (by simpa [validOp] using hv) h
  | endSubmission w ok =>
    show SchedInv (endSubmission w ok s).2
    unfold endSubmission
    split
    · exact h
    · split
      · exact invCore_closeFrame _ (invCore_closeSubmission s h)
      · exact invCore_closeSubmission s h
  | awaitAll => exact invCore_awaitAll s h
  | pushTransition r o n sub => exact schedInv_of_view_eq _ s rfl h
  | pushAliasing o n => exact schedInv_of_view_eq _ s rfl h
  | pushUAV r => exact schedInv_of_view_eq _ s rfl h
  | submitBarriers =>
    exact schedInv_of_view_eq _ s (schedView_submitBarriers s) h
  | requestScratch size state =>
    exact schedInv_of_view_eq _ s (schedView_requestScratch size state s) h
  | releaseScratch ns => exact schedInv_of_view_eq _ s rfl h

lemma schedInv_init : SchedInv initState := by
  refine ⟨Nat.le_refl 1, Nat.zero_lt_one, rfl, ?_, rfl, ?_, ?_⟩
  · intro x hx
    simp only [schedView, initState, List.mem_cons, List.not_mem_nil, or_false] at hx
    show x < 1
    omega
  · intro f hf1 hf2 hf3
    simp only [schedView, initState, List.length_nil] at hf2
    omega
  · intro i hi
    simp only [schedView, initState, List.length_nil] at hi
    omega

lemma schedInv_reachable (s : ProcState) (h : Reachable s) : SchedInv s := by
  induction h with
  | init => exact schedInv_init
  | step s op hr hv ih => exact schedInv_applyOp s op hv ih

/-- C10: the freshly constructed processor (field initializers of the header) reports
current submission 1 and completed submission 0, and in every reachable state the
completed-submission counter never overtakes the current submission counter. -/
theorem submission_counters_invariant :
    initState.submission_current = 1 ∧ initState.submission_completed = 0 ∧
    ∀ s, Reachable s → s.submission_completed ≤ s.submission_current := by
  refine ⟨rfl, rfl, ?_⟩
  intro s hs
  have h : s.submission_completed < s.submission_current :=
    (schedInv_reachable s hs).completed_lt
  omega

/-- Witness for C10 at a concrete reachable state after opening and closing a
submission. -/
theorem submission_counters_invariant_witness :
    (applyOp (applyOp initState (Op.beginSubmission true 0))
        (Op.endSubmission true true)).submission_completed ≤
      (applyOp (applyOp initState (Op.beginSubmission true 0))
        (Op.endSubmission true true)).submission_current :=
  submission_counters_invariant.2.2 _
    (Reachable.step _ (Op.endSubmission true true)
      (Reachable.step _ (Op.beginSubmission true 0) Reachable.init (by decide))
      (by decide))

/-- Number of frames with at least one submission not yet completed: the closed frames
whose closing submission id exceeds the completed counter, plus the currently open
frame if there is one. -/
def inFlightFrames (s : ProcState) : Nat :=
  s.closed_frame_history.countP (fun c => decide (s.submission_completed < c)) +
    (if s.frame_open then 1 else 0)

/-- C2: in every reachable state of the scheduler, at most `kQueueFrames` (3) frames
have a submission that is not yet completed: the ring of outstanding frame-closing
submission ids together with the wait on its oldest entry before opening a new frame
caps the number of in-flight frames at the configured queue depth. -/
theorem frame_depth_bounded (s : ProcState) (h : Reachable s) :
    inFlightFrames s ≤ kQueueFrames := by
  obtain ⟨hcur, hclt, hringlen, hringlt, hn, hrh, hhc⟩ :=
    schedInv_fields s (schedInv_reachable s h)
  unfold inFlightFrames kQueueFrames
  by_cases ho : s.frame_open = true
  · have hcount : s.closed_frame_history.countP
        (fun c => decide (s.submission_completed < c)) ≤
        s.closed_frame_history.length - (s.closed_frame_history.length - 2) := by
      apply countP_le_of_prefix_false
      intro i hi
      have hle : s.closed_frame_history.getD i 0 ≤ s.submission_completed := by
        apply hhc i
        rw [ho]
        simp only [openBonus]
        omega
      show decide (s.submission_completed < s.closed_frame_history.getD i 0) = false
      exact decide_eq_false_iff_not.mpr (Nat.not_lt.mpr hle)
    rw [ho]
    simp only [if_true]
    omega
  · have ho2 : s.frame_open = false := by
      revert ho
      cases s.frame_open <;> simp
    have hcount : s.closed_frame_history.countP
        (fun c => decide (s.submission_completed < c)) ≤
        s.closed_frame_history.length - (s.closed_frame_history.length - 3) := by
      apply countP_le_of_prefix_false
      intro i hi
      have hle : s.closed_frame_history.getD i 0 ≤ s.submission_completed := by
        apply hhc i
        rw [ho2]
        simp only [openBonus]
        omega
      show decide (s.submission_completed < s.closed_frame_history.getD i 0) = false
      exact decide_eq_false_iff_not.mpr (Nat.not_lt.mpr hle)
    rw [ho2]
    simp only [Bool.false_eq_true, if_false]
    omega

/-- Witness for C2 at a concrete reachable state with one closed frame and one open
frame. -/
theorem frame_depth_bounded_witness :
    inFlightFrames
      (applyOp (applyOp (applyOp initState (Op.beginSubmission true 0))
          (Op.endSubmission true true)) (Op.beginSubmission true 0)) ≤ kQueueFrames :=
  frame_depth_bounded _
    (Reachable.step _ (Op.beginSubmission true 0)
      (Reachable.step _ (Op.endSubmission true true)
        (Reachable.step _ (Op.beginSubmission true 0) Reachable.init (by decide))
        (by decide))
      (by decide))

/-! ### Transient descriptor heap requests (claim C9) -/

/-- Modelled from the spec: the page cursor of a descriptor heap pool (the
`DescriptorHeapPool` bodies behind `view_heap_pool_`/`sampler_heap_pool_`, header lines
307-308, are not under src/): the currently active heap generation index, the page
capacity, and the number of entries already allocated in the current page. -/
structure DescriptorHeapPool where
  heap_index : Nat
  page_size : Nat
  page_used : Nat
deriving DecidableEq

/-- Result of a descriptor request: the new heap generation index together with the
CPU- and GPU-visible handles of the allocated range, modelled as offsets into the
active page. -/
structure DescriptorRequestResult where
  heap_index : Nat
  cpu_handle : Nat
  gpu_handle : Nat
deriving DecidableEq

/-- Modelled from the spec: `RequestDescriptors(previous_heap_index, count_partial,
count_full)`, the operation behind `RequestViewDescriptors` and
`RequestSamplerDescriptors` (declared header lines 101-112; the pool body is not under
src/) - "if the caller's last-used heap generation index matches the currently active
one and count_partial slots are free in the current page, allocates a partial range;
otherwise begins a new page sized for count_full entries".  Fails (no allocation, pool
unchanged) when the counts are inconsistent or the full count cannot fit one page. -/
def requestDescriptors (pool : DescriptorHeapPool)
    (previous_heap_index count_for_partial_update count_for_full_update : Nat) :
    Option DescriptorRequestResult × DescriptorHeapPool :=
  if count_for_partial_update > count_for_full_update ∨
      count_for_full_update > pool.page_size then
    (none, pool)
  else if previous_heap_index = pool.heap_index ∧
      pool.page_used + count_for_partial_update ≤ pool.page_size then
    (some ⟨pool.heap_index, pool.page_used, pool.page_used⟩,
     { pool with page_used := pool.page_used + count_for_partial_update })
  else
    (some ⟨pool.heap_index + 1, 0, 0⟩,
     { pool with heap_index := pool.heap_index + 1,
                 page_used := count_for_full_update })

lemma requestDescriptors_partial (pool : DescriptorHeapPool) (prev cp cf : Nat)
    (h1 : cp ≤ cf) (h2 : cf ≤ pool.page_size) (h3 : prev = pool.heap_index)
    (h4 : pool.page_used + cp ≤ pool.page_size) :
    requestDescriptors pool prev cp cf =
      (some ⟨pool.heap_index, pool.page_used, pool.page_used⟩,
       { pool with page_used := pool.page_used + cp }) := by
  unfold requestDescriptors
  rw [if_neg (by omega), if_pos ⟨h3, h4⟩]

lemma requestDescriptors_rollover (pool : DescriptorHeapPool) (prev cp cf : Nat)
    (h1 : cp ≤ cf) (h2 : cf ≤ pool.page_size)
    (h3 : prev ≠ pool.heap_index ∨ pool.page_size < pool.page_used + cp) :
    requestDescriptors pool prev cp cf =
      (some ⟨pool.heap_index + 1, 0, 0⟩,
       { pool with heap_index := pool.heap_index + 1, page_used := cf }) := by
  unfold requestDescriptors
  rw [if_neg (by omega), if_neg ?_]
  intro hcon
  rcases h3 with h3 | h3
  · exact h3 hcon.1
  · omega

/-- A successful request implies the counts were consistent, the returned generation
index is the now-active one, and the page cursor stays within the unchanged capacity. -/
lemma requestDescriptors_success (pool : DescriptorHeapPool) (prev cp cf : Nat)
    (res : DescriptorRequestResult)
    (h : (requestDescriptors pool prev cp cf).1 = some res) :
    res.heap_index = (requestDescriptors pool prev cp cf).2.heap_index ∧
    (requestDescriptors pool prev cp cf).2.page_used ≤ pool.page_size ∧
    (requestDescriptors pool prev cp cf).2.page_size = pool.page_size ∧
    cp ≤ cf ∧ cf ≤ pool.page_size := by
  revert h
  unfold requestDescriptors
  split
  · intro h
    exact absurd h (by simp)
  · next hok =>
    push_neg at hok
    split
    · next hc =>
      intro h
      simp only [Option.some_inj] at h
      subst h
      refine ⟨rfl, ?_, rfl, by omega, by omega⟩
      show pool.page_used + cp ≤ pool.page_size
      omega
    · intro h
      simp only [Option.some_inj] at h
      subst h
      refine ⟨rfl, ?_, rfl, by omega, by omega⟩
      show cf ≤ pool.page_size
      omega

/-- C9: with consistent counts (partial ≤ full ≤ page capacity), a descriptor request
whose previous heap generation index equals the active one and whose partial count fits
the free space of the current page allocates a partial range in place - returning the
unchanged generation index and handles at the current page offset; otherwise it starts
a new page sized for the full count, returning the incremented generation index and
handles at offset 0 (the caller must rewrite all bound descriptors). -/
theorem requestDescriptors_two_tier (pool : DescriptorHeapPool)
    (prev cp cf : Nat) (h1 : cp ≤ cf) (h2 : cf ≤ pool.page_size) :
    (prev = pool.heap_index → pool.page_used + cp ≤ pool.page_size →
      requestDescriptors pool prev cp cf =
        (some ⟨pool.heap_index, pool.page_used, pool.page_used⟩,
         { pool with page_used := pool.page_used + cp })) ∧
    (prev ≠ pool.heap_index ∨ pool.page_size < pool.page_used + cp →
      requestDescriptors pool prev cp cf =
        (some ⟨pool.heap_index + 1, 0, 0⟩,
         { pool with heap_index := pool.heap_index + 1, page_used := cf })) :=
  ⟨fun h3 h4 => requestDescriptors_partial pool prev cp cf h1 h2 h3 h4,
   fun h3 => requestDescriptors_rollover pool prev cp cf h1 h2 h3⟩

/-- Witness for C9: a concrete pool with capacity 8 and 5 used entries serves a
partial request of 2 in place, and rolls to a new page for a caller with a stale heap
generation index. -/
theorem requestDescriptors_two_tier_witness :
    (2 ≤ 6 ∧ 6 ≤ (⟨4, 8, 5⟩ : DescriptorHeapPool).page_size) ∧
    requestDescriptors ⟨4, 8, 5⟩ 4 2 6 = (some ⟨4, 5, 5⟩, ⟨4, 8, 7⟩) ∧
    requestDescriptors ⟨4, 8, 5⟩ 3 2 6 = (some ⟨5, 0, 0⟩, ⟨5, 8, 6⟩) :=
  ⟨⟨by decide, by decide⟩,
   (requestDescriptors_two_tier ⟨4, 8, 5⟩ 4 2 6 (by decide) (by decide)).1
     rfl (by decide),
   (requestDescriptors_two_tier ⟨4, 8, 5⟩ 3 2 6 (by decide) (by decide)).2
     (Or.inl (by decide))⟩

/-! ### Descriptor binding cache (claim C8) -/

/-- Constant buffer binding record, `ConstantBufferBinding` (header lines 398-401):
the GPU virtual address of the current data and a freshness flag. -/
structure ConstantBufferBinding where
  buffer_address : Nat
  up_to_date : Bool
deriving DecidableEq

/-- The binding-cache fields of the processor (header lines 402-430): per-block
constant buffer bindings, per-stage texture/sampler written flags and content hashes,
the heap generation indices last used for draws, and the two descriptor heap pools. -/
structure BindingState where
  cbuffer_bindings_system : ConstantBufferBinding
  cbuffer_bindings_float_vertex : ConstantBufferBinding
  cbuffer_bindings_float_pixel : ConstantBufferBinding
  cbuffer_bindings_bool_loop : ConstantBufferBinding
  cbuffer_bindings_fetch : ConstantBufferBinding
  texture_bindings_written_vertex : Bool
  texture_bindings_written_pixel : Bool
  current_texture_bindings_hash_vertex : Nat
  current_texture_bindings_hash_pixel : Nat
  samplers_written_vertex : Bool
  samplers_written_pixel : Bool
  current_samplers_hash_vertex : Nat
  current_samplers_hash_pixel : Nat
  draw_view_heap_index : Nat
  draw_sampler_heap_index : Nat
  view_heap_pool : DescriptorHeapPool
  sampler_heap_pool : DescriptorHeapPool
deriving DecidableEq

/-- The per-draw inputs of `UpdateBindings`: the constant-block buffer addresses, the
texture/sampler binding content hashes per stage, and the descriptor counts of the
optional slots implied by the active shaders (0 = slot absent). -/
structure BindingInputs where
  address_system : Nat
  address_float_vertex : Nat
  address_float_pixel : Nat
  address_bool_loop : Nat
  address_fetch : Nat
  texture_hash_vertex : Nat
  texture_hash_pixel : Nat
  sampler_hash_vertex : Nat
  sampler_hash_pixel : Nat
  texture_count_vertex : Nat
  texture_count_pixel : Nat
  sampler_count_vertex : Nat
  sampler_count_pixel : Nat
deriving DecidableEq

/-- The logical binding slots (root parameters, header lines 181-210). -/
inductive BindingSlot where
  | systemConstants
  | floatConstantsVertex
  | floatConstantsPixel
  | boolLoopConstants
  | fetchConstants
  | sharedMemoryAndEDRAM
  | texturesVertex
  | texturesPixel
  | samplersVertex
  | samplersPixel
deriving DecidableEq

/-- A constant-block slot is stale when its freshness flag is down or its backing
address changed. -/
def needSystemConstants (i : BindingInputs) (s : BindingState) : Bool :=
  !s.cbuffer_bindings_system.up_to_date ||
    decide (s.cbuffer_bindings_system.buffer_address ≠ i.address_system)

def needFloatConstantsVertex (i : BindingInputs) (s : BindingState) : Bool :=
  !s.cbuffer_bindings_float_vertex.up_to_date ||
    decide (s.cbuffer_bindings_float_vertex.buffer_address ≠ i.address_float_vertex)

def needFloatConstantsPixel (i : BindingInputs) (s : BindingState) : Bool :=
  !s.cbuffer_bindings_float_pixel.up_to_date ||
    decide (s.cbuffer_bindings_float_pixel.buffer_address ≠ i.address_float_pixel)

def needBoolLoopConstants (i : BindingInputs) (s : BindingState) : Bool :=
  !s.cbuffer_bindings_bool_loop.up_to_date ||
    decide (s.cbuffer_bindings_bool_loop.buffer_address ≠ i.address_bool_loop)

def needFetchConstants (i : BindingInputs) (s : BindingState) : Bool :=
  !s.cbuffer_bindings_fetch.up_to_date ||
    decide (s.cbuffer_bindings_fetch.buffer_address ≠ i.address_fetch)

/-- A texture slot is stale when present and either never written to the current heap
page or written with a different content hash. -/
def needTexturesVertex (i : BindingInputs) (s : BindingState) : Bool :=
  decide (i.texture_count_vertex ≠ 0) &&
    (!s.texture_bindings_written_vertex ||
      decide (s.current_texture_bindings_hash_vertex ≠ i.texture_hash_vertex))

def needTexturesPixel (i : BindingInputs) (s : BindingState) : Bool :=
  decide (i.texture_count_pixel ≠ 0) &&
    (!s.texture_bindings_written_pixel ||
      decide (s.current_texture_bindings_hash_pixel ≠ i.texture_hash_pixel))

def needSamplersVertex (i : BindingInputs) (s : BindingState) : Bool :=
  decide (i.sampler_count_vertex ≠ 0) &&
    (!s.samplers_written_vertex ||
      decide (s.current_samplers_hash_vertex ≠ i.sampler_hash_vertex))

def needSamplersPixel (i : BindingInputs) (s : BindingState) : Bool :=
  decide (i.sampler_count_pixel ≠ 0) &&
    (!s.samplers_written_pixel ||
      decide (s.current_samplers_hash_pixel ≠ i.sampler_hash_pixel))

/-- Staleness of each logical slot; the shared-memory-and-EDRAM slot is rewritten only
when a new descriptor heap page is started (header lines 196-199). -/
def needSlot (i : BindingInputs) (s : BindingState) : BindingSlot → Bool
  | .systemConstants => needSystemConstants i s
  | .floatConstantsVertex => needFloatConstantsVertex i s
  | .floatConstantsPixel => needFloatConstantsPixel i s
  | .boolLoopConstants => needBoolLoopConstants i s
  | .fetchConstants => needFetchConstants i s
  | .sharedMemoryAndEDRAM => false
  | .texturesVertex => needTexturesVertex i s
  | .texturesPixel => needTexturesPixel i s
  | .samplersVertex => needSamplersVertex i s
  | .samplersPixel => needSamplersPixel i s

/-- Whether a slot exists for the active shaders (optional slots are absent when their
descriptor count is 0). -/
def slotPresent (i : BindingInputs) : BindingSlot → Bool
  | .texturesVertex => decide (i.texture_count_vertex ≠ 0)
  | .texturesPixel => decide (i.texture_count_pixel ≠ 0)
  | .samplersVertex => decide (i.sampler_count_vertex ≠ 0)
  | .samplersPixel => decide (i.sampler_count_pixel ≠ 0)
  | _ => true

/-- The view-heap slots in descriptor write order. -/
def viewSlotOrder : List BindingSlot :=
  [.systemConstants, .floatConstantsVertex, .floatConstantsPixel, .boolLoopConstants,
   .fetchConstants, .sharedMemoryAndEDRAM, .texturesVertex, .texturesPixel]

/-- The sampler-heap slots in descriptor write order. -/
def samplerSlotOrder : List BindingSlot :=
  [.samplersVertex, .samplersPixel]

/-- View descriptors needed for a partial update: one per stale constant block plus
the texture descriptor counts of stale texture slots. -/
def viewPartialCount (i : BindingInputs) (s : BindingState) : Nat :=
  (if needSystemConstants i s then 1 else 0) +
  (if needFloatConstantsVertex i s then 1 else 0) +
  (if needFloatConstantsPixel i s then 1 else 0) +
  (if needBoolLoopConstants i s then 1 else 0) +
  (if needFetchConstants i s then 1 else 0) +
  (if needTexturesVertex i s then i.texture_count_vertex else 0) +
  (if needTexturesPixel i s then i.texture_count_pixel else 0)

/-- View descriptors needed for a full rewrite: the five constant blocks, the
shared-memory-and-EDRAM slot and all textures. -/
def viewFullCount (i : BindingInputs) : Nat :=
  6 + i.texture_count_vertex + i.texture_count_pixel

/-- Sampler descriptors needed for a partial update. -/
def samplerPartialCount (i : BindingInputs) (s : BindingState) : Nat :=
  (if needSamplersVertex i s then i.sampler_count_vertex else 0) +
  (if needSamplersPixel i s then i.sampler_count_pixel else 0)

/-- Sampler descriptors needed for a full rewrite. -/
def samplerFullCount (i : BindingInputs) : Nat :=
  i.sampler_count_vertex + i.sampler_count_pixel

/-- The slots written by one update over a slot order: every present slot on a full
rewrite, only the stale ones on a partial update. -/
def writtenSlots (i : BindingInputs) (s : BindingState) (full : Bool)
    (order : List BindingSlot) : List BindingSlot :=
  order.filter (fun sl => if full then slotPresent i sl else needSlot i s sl)

/-- State update of the view-heap half of `UpdateBindings`: written constant blocks
cache the new address and become fresh, written texture slots record the new content
hash, and the draw view heap index and pool cursor advance. -/
def applyViewWrites (i : BindingInputs) (full : Bool) (heap_index : Nat)
    (pool : DescriptorHeapPool) (s : BindingState) : BindingState :=
  { s with
    cbuffer_bindings_system :=
      if full || needSystemConstants i s then ⟨i.address_system, true⟩
      else s.cbuffer_bindings_system
    cbuffer_bindings_float_vertex :=
      if full || needFloatConstantsVertex i s then ⟨i.address_float_vertex, true⟩
      else s.cbuffer_bindings_float_vertex
    cbuffer_bindings_float_pixel :=
      if full || needFloatConstantsPixel i s then ⟨i.address_float_pixel, true⟩
      else s.cbuffer_bindings_float_pixel
    cbuffer_bindings_bool_loop :=
      if full || needBoolLoopConstants i s then ⟨i.address_bool_loop, true⟩
      else s.cbuffer_bindings_bool_loop
    cbuffer_bindings_fetch :=
      if full || needFetchConstants i s then ⟨i.address_fetch, true⟩
      else s.cbuffer_bindings_fetch
    texture_bindings_written_vertex :=
      if full then decide (i.texture_count_vertex ≠ 0)
      else s.texture_bindings_written_vertex || needTexturesVertex i s
    texture_bindings_written_pixel :=
      if full then decide (i.texture_count_pixel ≠ 0)
      else s.texture_bindings_written_pixel || needTexturesPixel i s
    current_texture_bindings_hash_vertex :=
      if needTexturesVertex i s || (full && decide (i.texture_count_vertex ≠ 0)) then
        i.texture_hash_vertex
      else s.current_texture_bindings_hash_vertex
    current_texture_bindings_hash_pixel :=
      if needTexturesPixel i s || (full && decide (i.texture_count_pixel ≠ 0)) then
        i.texture_hash_pixel
      else s.current_texture_bindings_hash_pixel
    draw_view_heap_index := heap_index
    view_heap_pool := pool }

/-- State update of the sampler-heap half of `UpdateBindings`.  The staleness tests
are taken against `s0`, the state at the start of the call. -/
def applySamplerWrites (i : BindingInputs) (s0 : BindingState) (full : Bool)
    (heap_index : Nat) (pool : DescriptorHeapPool) (s : BindingState) : BindingState :=
  { s with
    samplers_written_vertex :=
      if full then decide (i.sampler_count_vertex ≠ 0)
      else s0.samplers_written_vertex || needSamplersVertex i s0
    samplers_written_pixel :=
      if full then decide (i.sampler_count_pixel ≠ 0)
      else s0.samplers_written_pixel || needSamplersPixel i s0
    current_samplers_hash_vertex :=
      if needSamplersVertex i s0 || (full && decide (i.sampler_count_vertex ≠ 0)) then
        i.sampler_hash_vertex
      else s0.current_samplers_hash_vertex
    current_samplers_hash_pixel :=
      if needSamplersPixel i s0 || (full && decide (i.sampler_count_pixel ≠ 0)) then
        i.sampler_hash_pixel
      else s0.current_samplers_hash_pixel
    draw_sampler_heap_index := heap_index
    sampler_heap_pool := pool }

/-- Modelled from the spec: `UpdateBindings` (declared header lines 248-250; body not
under src/) - requests view-heap space sized for a partial update of the stale slots
(or a full update when the heap page changes), then sampler-heap space likewise (no
sampler request when the shaders use no samplers), writes the descriptors of the stale
slots (of every present slot after a page change), records the new content hashes and
addresses and marks the slots fresh.  Returns the written slots in order, or `none`
with the state unchanged when heap space cannot be allocated (a dropped draw - "no
corruption because no partial state was committed"). -/
def updateBindings (i : BindingInputs) (s : BindingState) :
    Option (List BindingSlot) × BindingState :=
  let vreq := requestDescriptors s.view_heap_pool s.draw_view_heap_index
    (viewPartialCount i s) (viewFullCount i)
  match vreq.1 with
  | none => (none, s)
  | some vres =>
    let full_view := decide (vres.heap_index ≠ s.draw_view_heap_index)
    let view_writes := writtenSlots i s full_view viewSlotOrder
    if samplerFullCount i = 0 then
      (some view_writes, applyViewWrites i full_view vres.heap_index vreq.2 s)
    else
      let sreq := requestDescriptors s.sampler_heap_pool s.draw_sampler_heap_index
        (samplerPartialCount i s) (samplerFullCount i)
      match sreq.1 with
      | none => (none, s)
      | some sres =>
        let full_sampler := decide (sres.heap_index ≠ s.draw_sampler_heap_index)
        (some (view_writes ++ writtenSlots i s full_sampler samplerSlotOrder),
         applySamplerWrites i s full_sampler sres.heap_index sreq.2
           (applyViewWrites i full_view vres.heap_index vreq.2 s))

/-- Whether a slot's content differs between two input sets (with identical shader
slot shapes): a constant block differs when its address changed, a texture/sampler
slot differs when present and its content hash changed; the shared-memory slot has
fixed content. -/
def contentDiffers (i i2 : BindingInputs) : BindingSlot → Bool
  | .systemConstants => decide (i.address_system ≠ i2.address_system)
  | .floatConstantsVertex => decide (i.address_float_vertex ≠ i2.address_float_vertex)
  | .floatConstantsPixel => decide (i.address_float_pixel ≠ i2.address_float_pixel)
  | .boolLoopConstants => decide (i.address_bool_loop ≠ i2.address_bool_loop)
  | .fetchConstants => decide (i.address_fetch ≠ i2.address_fetch)
  | .sharedMemoryAndEDRAM => false
  | .texturesVertex =>
    decide (i.texture_count_vertex ≠ 0) &&
      decide (i.texture_hash_vertex ≠ i2.texture_hash_vertex)
  | .texturesPixel =>
    decide (i.texture_count_pixel ≠ 0) &&
      decide (i.texture_hash_pixel ≠ i2.texture_hash_pixel)
  | .samplersVertex =>
    decide (i.sampler_count_vertex ≠ 0) &&
      decide (i.sampler_hash_vertex ≠ i2.sampler_hash_vertex)
  | .samplersPixel =>
    decide (i.sampler_count_pixel ≠ 0) &&
      decide (i.sampler_hash_pixel ≠ i2.sampler_hash_pixel)

/-- Two input sets come from the same shaders: all optional-slot descriptor counts
agree. -/
def SameCounts (i i2 : BindingInputs) : Prop :=
  i2.texture_count_vertex = i.texture_count_vertex ∧
  i2.texture_count_pixel = i.texture_count_pixel ∧
  i2.sampler_count_vertex = i.sampler_count_vertex ∧
  i2.sampler_count_pixel = i.sampler_count_pixel

/-- State of the binding cache right after a successful `updateBindings i`: every
cached address and content hash reflects `i`, all freshness flags are up, the last-used
heap generation indices are the active ones, and the page cursors are within capacity
with room for a full rewrite. -/
structure CacheMatches (i : BindingInputs) (s : BindingState) : Prop where
  system_eq : s.cbuffer_bindings_system = ⟨i.address_system, true⟩
  float_vertex_eq : s.cbuffer_bindings_float_vertex = ⟨i.address_float_vertex, true⟩
  float_pixel_eq : s.cbuffer_bindings_float_pixel = ⟨i.address_float_pixel, true⟩
  bool_loop_eq : s.cbuffer_bindings_bool_loop = ⟨i.address_bool_loop, true⟩
  fetch_eq : s.cbuffer_bindings_fetch = ⟨i.address_fetch, true⟩
  tex_vertex : i.texture_count_vertex ≠ 0 →
    s.texture_bindings_written_vertex = true ∧
    s.current_texture_bindings_hash_vertex = i.texture_hash_vertex
  tex_pixel : i.texture_count_pixel ≠ 0 →
    s.texture_bindings_written_pixel = true ∧
    s.current_texture_bindings_hash_pixel = i.texture_hash_pixel
  samp_vertex : i.sampler_count_vertex ≠ 0 →
    s.samplers_written_vertex = true ∧
    s.current_samplers_hash_vertex = i.sampler_hash_vertex
  samp_pixel : i.sampler_count_pixel ≠ 0 →
    s.samplers_written_pixel = true ∧
    s.current_samplers_hash_pixel = i.sampler_hash_pixel
  view_index_eq : s.draw_view_heap_index = s.view_heap_pool.heap_index
  view_used_le : s.view_heap_pool.page_used ≤ s.view_heap_pool.page_size
  view_full_le : viewFullCount i ≤ s.view_heap_pool.page_size
  samp_pool : samplerFullCount i ≠ 0 →
    s.draw_sampler_heap_index = s.sampler_heap_pool.heap_index ∧
    s.sampler_heap_pool.page_used ≤ s.sampler_heap_pool.page_size ∧
    samplerFullCount i ≤ s.sampler_heap_pool.page_size

lemma cbuffer_write_fresh (c : ConstantBufferBinding) (addr : Nat) (full : Bool) :
    (if full || (!c.up_to_date || decide (c.buffer_address ≠ addr)) then
      (⟨addr, true⟩ : ConstantBufferBinding) else c) = ⟨addr, true⟩ := by
  cases c with
  | mk a u => cases u <;> cases full <;> by_cases hh : a = addr <;> simp_all

lemma texture_write_written (written : Bool) (hash newhash cnt : Nat)
    (full : Bool) (hc : cnt ≠ 0) :
    (if full then decide (cnt ≠ 0)
      else written || (decide (cnt ≠ 0) && (!written || decide (hash ≠ newhash)))) =
      true := by
  have hd : decide (cnt ≠ 0) = true := decide_eq_true hc
  split
  · exact hd
  · rw [hd]
    cases written <;> simp

lemma texture_write_hash (written : Bool) (hash newhash cnt : Nat)
    (full : Bool) (hc : cnt ≠ 0) :
    (if (decide (cnt ≠ 0) && (!written || decide (hash ≠ newhash))) ||
        (full && decide (cnt ≠ 0)) then newhash else hash) = newhash := by
  have hd : decide (cnt ≠ 0) = true := decide_eq_true hc
  rw [hd]
  cases written <;> cases full <;> by_cases hh : hash = newhash <;> simp_all

lemma applyViewWrites_system (i : BindingInputs) (full : Bool) (hi : Nat)
    (pool : DescriptorHeapPool) (s : BindingState) :
    (applyViewWrites i full hi pool s).cbuffer_bindings_system =
      ⟨i.address_system, true⟩ := by
  simp only [applyViewWrites, needSystemConstants]
  exact cbuffer_write_fresh _ _ _

lemma applyViewWrites_float_vertex (i : BindingInputs) (full : Bool) (hi : Nat)
    (pool : DescriptorHeapPool) (s : BindingState) :
    (applyViewWrites i full hi pool s).cbuffer_bindings_float_vertex =
      ⟨i.address_float_vertex, true⟩ := by
  simp only [applyViewWrites, needFloatConstantsVertex]
  exact cbuffer_write_fresh _ _ _

lemma applyViewWrites_float_pixel (i : BindingInputs) (full : Bool) (hi : Nat)
    (pool : DescriptorHeapPool) (s : BindingState) :
    (applyViewWrites i full hi pool s).cbuffer_bindings_float_pixel =
      ⟨i.address_float_pixel, true⟩ := by
  simp only [applyViewWrites, needFloatConstantsPixel]
  exact cbuffer_write_fresh _ _ _

lemma applyViewWrites_bool_loop (i : BindingInputs) (full : Bool) (hi : Nat)
    (pool : DescriptorHeapPool) (s : BindingState) :
    (applyViewWrites i full hi pool s).cbuffer_bindings_bool_loop =
      ⟨i.address_bool_loop, true⟩ := by
  simp only [applyViewWrites, needBoolLoopConstants]
  exact cbuffer_write_fresh _ _ _

lemma applyViewWrites_fetch (i : BindingInputs) (full : Bool) (hi : Nat)
    (pool : DescriptorHeapPool) (s : BindingState) :
    (applyViewWrites i full hi pool s).cbuffer_bindings_fetch =
      ⟨i.address_fetch, true⟩ := by
  simp only [applyViewWrites, needFetchConstants]
  exact cbuffer_write_fresh _ _ _

lemma applyViewWrites_texture_vertex (i : BindingInputs) (full : Bool) (hi : Nat)
    (pool : DescriptorHeapPool) (s : BindingState) (hc : i.texture_count_vertex ≠ 0) :
    (applyViewWrites i full hi pool s).texture_bindings_written_vertex = true ∧
    (applyViewWrites i full hi pool s).current_texture_bindings_hash_vertex =
      i.texture_hash_vertex := by
  constructor
  · simp only [applyViewWrites, needTexturesVertex]
    exact texture_write_written _ _ _ _ _ hc
  · simp only [applyViewWrites, needTexturesVertex]
    exact texture_write_hash _ _ _ _ _ hc

lemma applyViewWrites_texture_pixel (i : BindingInputs) (full : Bool) (hi : Nat)
    (pool : DescriptorHeapPool) (s : BindingState) (hc : i.texture_count_pixel ≠ 0) :
    (applyViewWrites i full hi pool s).texture_bindings_written_pixel = true ∧
    (applyViewWrites i full hi pool s).current_texture_bindings_hash_pixel =
      i.texture_hash_pixel := by
  constructor
  · simp only [applyViewWrites, needTexturesPixel]
    exact texture_write_written _ _ _ _ _ hc
  · simp only [applyViewWrites, needTexturesPixel]
    exact texture_write_hash _ _ _ _ _ hc

lemma applySamplerWrites_vertex (i : BindingInputs) (s0 : BindingState) (full : Bool)
    (hi : Nat) (pool : DescriptorHeapPool) (s : BindingState)
    (hc : i.sampler_count_vertex ≠ 0) :
    (applySamplerWrites i s0 full hi pool s).samplers_written_vertex = true ∧
    (applySamplerWrites i s0 full hi pool s).current_samplers_hash_vertex =
      i.sampler_hash_vertex := by
  constructor
  · simp only [applySamplerWrites, needSamplersVertex]
    exact texture_write_written _ _ _ _ _ hc
  · simp only [applySamplerWrites, needSamplersVertex]
    exact texture_write_hash _ _ _ _ _ hc

lemma applySamplerWrites_pixel (i : BindingInputs) (s0 : BindingState) (full : Bool)
    (hi : Nat) (pool : DescriptorHeapPool) (s : BindingState)
    (hc : i.sampler_count_pixel ≠ 0) :
    (applySamplerWrites i s0 full hi pool s).samplers_written_pixel = true ∧
    (applySamplerWrites i s0 full hi pool s).current_samplers_hash_pixel =
      i.sampler_hash_pixel := by
  constructor
  · simp only [applySamplerWrites, needSamplersPixel]
    exact texture_write_written _ _ _ _ _ hc
  · simp only [applySamplerWrites, needSamplersPixel]
    exact texture_write_hash _ _ _ _ _ hc

/-- After any successful `updateBindings i`, the cache fully reflects the inputs `i`
and the heap bookkeeping is consistent. -/
lemma updateBindings_success_state (i : BindingInputs) (s0 : BindingState)
    (w : List BindingSlot) (h : (updateBindings i s0).1 = some w) :
    CacheMatches i (updateBindings i s0).2 := by
  revert h
  simp only [updateBindings]
  split
  · intro h
    exact absurd h (by simp)
  · next vres hveq =>
    have hv := requestDescriptors_success _ _ _ _ _ hveq
    split
    · next hsf =>
      intro _
      have hscv : i.sampler_count_vertex = 0 := by
        unfold samplerFullCount at hsf
        omega
      have hscp : i.sampler_count_pixel = 0 := by
        unfold samplerFullCount at hsf
        omega
      refine ⟨applyViewWrites_system i _ _ _ s0, applyViewWrites_float_vertex i _ _ _ s0,
        applyViewWrites_float_pixel i _ _ _ s0, applyViewWrites_bool_loop i _ _ _ s0,
        applyViewWrites_fetch i _ _ _ s0,
        fun hc => applyViewWrites_texture_vertex i _ _ _ s0 hc,
        fun hc => applyViewWrites_texture_pixel i _ _ _ s0 hc,
        fun hc => absurd hscv hc, fun hc => absurd hscp hc,
        hv.1, ?_, ?_, fun hsf2 => absurd hsf hsf2⟩
      · simp only [applyViewWrites]
        rw [hv.2.2.1]
        exact hv.2.1
      · simp only [applyViewWrites]
        rw [hv.2.2.1]
        exact hv.2.2.2.2
    · split
      · intro h
        exact absurd h (by simp)
      · next sres hseq =>
        intro _
        have hs := requestDescriptors_success _ _ _ _ _ hseq
        refine ⟨?_, ?_, ?_, ?_, ?_, ?_, ?_,
          fun hc => applySamplerWrites_vertex i s0 _ _ _ _ hc,
          fun hc => applySamplerWrites_pixel i s0 _ _ _ _ hc,
          ?_, ?_, ?_, fun _ => ⟨?_, ?_, ?_⟩⟩
        · simp only [applySamplerWrites]
          exact applyViewWrites_system i _ _ _ s0
        · simp only [applySamplerWrites]
          exact applyViewWrites_float_vertex i _ _ _ s0
        · simp only [applySamplerWrites]
          exact applyViewWrites_float_pixel i _ _ _ s0
        · simp only [applySamplerWrites]
          exact applyViewWrites_bool_loop i _ _ _ s0
        · simp only [applySamplerWrites]
          exact applyViewWrites_fetch i _ _ _ s0
        · intro hc
          simp only [applySamplerWrites]
          exact applyViewWrites_texture_vertex i _ _ _ s0 hc
        · intro hc
          simp only [applySamplerWrites]
          exact applyViewWrites_texture_pixel i _ _ _ s0 hc
        · simp only [applySamplerWrites, applyViewWrites]
          exact hv.1
        · simp only [applySamplerWrites, applyViewWrites]
          rw [hv.2.2.1]
          exact hv.2.1
        · simp only [applySamplerWrites, applyViewWrites]
          rw [hv.2.2.1]
          exact hv.2.2.2.2
        · simp only [applySamplerWrites]
          exact hs.1
        · simp only [applySamplerWrites]
          rw [hs.2.2.1]
          exact hs.2.1
        · simp only [applySamplerWrites]
          rw [hs.2.2.1]
          exact hs.2.2.2.2

lemma needs_after (i i2 : BindingInputs) (s1 : BindingState)
    (hm : CacheMatches i s1) (hc : SameCounts i i2) :
    needSystemConstants i2 s1 = contentDiffers i i2 BindingSlot.systemConstants ∧
    needFloatConstantsVertex i2 s1 = contentDiffers i i2 BindingSlot.floatConstantsVertex ∧
    needFloatConstantsPixel i2 s1 = contentDiffers i i2 BindingSlot.floatConstantsPixel ∧
    needBoolLoopConstants i2 s1 = contentDiffers i i2 BindingSlot.boolLoopConstants ∧
    needFetchConstants i2 s1 = contentDiffers i i2 BindingSlot.fetchConstants ∧
    needTexturesVertex i2 s1 = contentDiffers i i2 BindingSlot.texturesVertex ∧
    needTexturesPixel i2 s1 = contentDiffers i i2 BindingSlot.texturesPixel ∧
    needSamplersVertex i2 s1 = contentDiffers i i2 BindingSlot.samplersVertex ∧
    needSamplersPixel i2 s1 = contentDiffers i i2 BindingSlot.samplersPixel := by
  obtain ⟨hc1, hc2, hc3, hc4⟩ := hc
  refine ⟨?_, ?_, ?_, ?_, ?_, ?_, ?_, ?_, ?_⟩
  · simp [needSystemConstants, contentDiffers, hm.system_eq]
  · simp [needFloatConstantsVertex, contentDiffers, hm.float_vertex_eq]
  · simp [needFloatConstantsPixel, contentDiffers, hm.float_pixel_eq]
  · simp [needBoolLoopConstants, contentDiffers, hm.bool_loop_eq]
  · simp [needFetchConstants, contentDiffers, hm.fetch_eq]
  · by_cases hcv : i.texture_count_vertex = 0
    · simp [needTexturesVertex, contentDiffers, hc1, hcv]
    · obtain ⟨hw, hh⟩ := hm.tex_vertex hcv
      simp [needTexturesVertex, contentDiffers, hc1, hcv, hw, hh]
  · by_cases hcp : i.texture_count_pixel = 0
    · simp [needTexturesPixel, contentDiffers, hc2, hcp]
    · obtain ⟨hw, hh⟩ := hm.tex_pixel hcp
      simp [needTexturesPixel, contentDiffers, hc2, hcp, hw, hh]
  · by_cases hcv : i.sampler_count_vertex = 0
    · simp [needSamplersVertex, contentDiffers, hc3, hcv]
    · obtain ⟨hw, hh⟩ := hm.samp_vertex hcv
      simp [needSamplersVertex, contentDiffers, hc3, hcv, hw, hh]
  · by_cases hcp : i.sampler_count_pixel = 0
    · simp [needSamplersPixel, contentDiffers, hc4, hcp]
    · obtain ⟨hw, hh⟩ := hm.samp_pixel hcp
      simp [needSamplersPixel, contentDiffers, hc4, hcp, hw, hh]

lemma needSlot_after (i i2 : BindingInputs) (s1 : BindingState)
    (hm : CacheMatches i s1) (hc : SameCounts i i2) (sl : BindingSlot) :
    needSlot i2 s1 sl = contentDiffers i i2 sl := by
  obtain ⟨h1, h2, h3, h4, h5, h6, h7, h8, h9⟩ := needs_after i i2 s1 hm hc
  cases sl <;>
    simp [needSlot, contentDiffers, h1, h2, h3, h4, h5, h6, h7, h8, h9]

lemma contentDiffers_self (i : BindingInputs) (sl : BindingSlot) :
    contentDiffers i i sl = false := by
  cases sl <;> simp [contentDiffers]

lemma viewPartialCount_le_full (i : BindingInputs) (s : BindingState) :
    viewPartialCount i s ≤ viewFullCount i := by
  unfold viewPartialCount viewFullCount
  have h1 : (if needSystemConstants i s then 1 else 0) ≤ 1 := by split <;> omega
  have h2 : (if needFloatConstantsVertex i s then 1 else 0) ≤ 1 := by split <;> omega
  have h3 : (if needFloatConstantsPixel i s then 1 else 0) ≤ 1 := by split <;> omega
  have h4 : (if needBoolLoopConstants i s then 1 else 0) ≤ 1 := by split <;> omega
  have h5 : (if needFetchConstants i s then 1 else 0) ≤ 1 := by split <;> omega
  have h6 : (if needTexturesVertex i s then i.texture_count_vertex else 0) ≤
      i.texture_count_vertex := by split <;> omega
  have h7 : (if needTexturesPixel i s then i.texture_count_pixel else 0) ≤
      i.texture_count_pixel := by split <;> omega
  omega

lemma samplerPartialCount_le_full (i : BindingInputs) (s : BindingState) :
    samplerPartialCount i s ≤ samplerFullCount i := by
  unfold samplerPartialCount samplerFullCount
  have h1 : (if needSamplersVertex i s then i.sampler_count_vertex else 0) ≤
      i.sampler_count_vertex := by split <;> omega
  have h2 : (if needSamplersPixel i s then i.sampler_count_pixel else 0) ≤
      i.sampler_count_pixel := by split <;> omega
  omega

lemma viewFullCount_congr (i i2 : BindingInputs) (hc : SameCounts i i2) :
    viewFullCount i2 = viewFullCount i := by
  obtain ⟨hc1, hc2, _, _⟩ := hc
  unfold viewFullCount
  omega

lemma samplerFullCount_congr (i i2 : BindingInputs) (hc : SameCounts i i2) :
    samplerFullCount i2 = samplerFullCount i := by
  obtain ⟨_, _, hc3, hc4⟩ := hc
  unfold samplerFullCount
  omega

lemma viewPartialCount_self_zero (i : BindingInputs) (s1 : BindingState)
    (hm : CacheMatches i s1) : viewPartialCount i s1 = 0 := by
  obtain ⟨h1, h2, h3, h4, h5, h6, h7, _, _⟩ :=
    needs_after i i s1 hm ⟨rfl, rfl, rfl, rfl⟩
  unfold viewPartialCount
  rw [h1, h2, h3, h4, h5, h6, h7]
  simp [contentDiffers_self]

lemma samplerPartialCount_self_zero (i : BindingInputs) (s1 : BindingState)
    (hm : CacheMatches i s1) : samplerPartialCount i s1 = 0 := by
  obtain ⟨_, _, _, _, _, _, _, h8, h9⟩ :=
    needs_after i i s1 hm ⟨rfl, rfl, rfl, rfl⟩
  unfold samplerPartialCount
  rw [h8, h9]
  simp [contentDiffers_self]

/-- At a cache state produced by a successful update on inputs `i`, a further call on
inputs `i2` (same shaders, page space available) performs exactly the partial writes of
the slots whose content changed. -/
lemma updateBindings_second (i i2 : BindingInputs) (s1 : BindingState)
    (hm : CacheMatches i s1) (hc : SameCounts i i2)
    (hroomv : s1.view_heap_pool.page_used + viewPartialCount i2 s1 ≤
      s1.view_heap_pool.page_size)
    (hrooms : samplerFullCount i = 0 ∨
      s1.sampler_heap_pool.page_used + samplerPartialCount i2 s1 ≤
        s1.sampler_heap_pool.page_size) :
    (updateBindings i2 s1).1 =
      some (viewSlotOrder.filter (contentDiffers i i2) ++
        samplerSlotOrder.filter (contentDiffers i i2)) := by
  have hvf : viewFullCount i2 = viewFullCount i := viewFullCount_congr i i2 hc
  have hsfc : samplerFullCount i2 = samplerFullCount i := samplerFullCount_congr i i2 hc
  have hveq : requestDescriptors s1.view_heap_pool s1.draw_view_heap_index
      (viewPartialCount i2 s1) (viewFullCount i2) =
      (some ⟨s1.view_heap_pool.heap_index, s1.view_heap_pool.page_used,
        s1.view_heap_pool.page_used⟩,
       { s1.view_heap_pool with
         page_used := s1.view_heap_pool.page_used + viewPartialCount i2 s1 }) :=
    requestDescriptors_partial _ _ _ _ (viewPartialCount_le_full i2 s1)
      (by rw [hvf]; exact hm.view_full_le) hm.view_index_eq hroomv
  have hfv : decide (s1.view_heap_pool.heap_index ≠ s1.draw_view_heap_index) = false := by
    simp [hm.view_index_eq]
  have hwv : writtenSlots i2 s1 false viewSlotOrder =
      viewSlotOrder.filter (contentDiffers i i2) := by
    unfold writtenSlots
    simp only [Bool.false_eq_true, if_false]
    exact List.filter_congr (fun sl _ => needSlot_after i i2 s1 hm hc sl)
  by_cases hsf2 : samplerFullCount i2 = 0
  · have hscv : i.sampler_count_vertex = 0 := by
      rw [hsfc] at hsf2
      unfold samplerFullCount at hsf2
      omega
    have hscp : i.sampler_count_pixel = 0 := by
      rw [hsfc] at hsf2
      unfold samplerFullCount at hsf2
      omega
    have hsfilter : samplerSlotOrder.filter (contentDiffers i i2) = [] := by
      simp [samplerSlotOrder, contentDiffers, hscv, hscp]
    simp only [updateBindings, hveq, hfv, hsf2, if_true, hwv, hsfilter,
      List.append_nil]
  · have hsf : samplerFullCount i ≠ 0 := by
      rw [hsfc] at hsf2
      exact hsf2
    obtain ⟨hsidx, hsused, hsfull⟩ := hm.samp_pool hsf
    have hseq : requestDescriptors s1.sampler_heap_pool s1.draw_sampler_heap_index
        (samplerPartialCount i2 s1) (samplerFullCount i2) =
        (some ⟨s1.sampler_heap_pool.heap_index, s1.sampler_heap_pool.page_used,
          s1.sampler_heap_pool.page_used⟩,
         { s1.sampler_heap_pool with
           page_used := s1.sampler_heap_pool.page_used + samplerPartialCount i2 s1 }) :=
      requestDescriptors_partial _ _ _ _ (samplerPartialCount_le_full i2 s1)
        (by rw [hsfc]; exact hsfull) hsidx
        (by rcases hrooms with hr | hr
            · exact absurd hr hsf
            · exact hr)
    have hfs : decide (s1.sampler_heap_pool.heap_index ≠ s1.draw_sampler_heap_index) =
        false := by
      simp [hsidx]
    have hws : writtenSlots i2 s1 false samplerSlotOrder =
        samplerSlotOrder.filter (contentDiffers i i2) := by
      unfold writtenSlots
      simp only [Bool.false_eq_true, if_false]
      exact List.filter_congr (fun sl _ => needSlot_after i i2 s1 hm hc sl)
    simp only [updateBindings, hveq, hfv, hsf2, if_false, hseq, hfs, hwv, hws]

/-- C8: after a successful `UpdateBindings` call on inputs `i`, an immediately
repeated call with identical inputs performs zero descriptor writes (pure cache hit),
and a repeated call whose inputs come from the same shaders but differ in some slots'
content performs exactly the partial writes of the changed slots - provided the current
descriptor heap pages have room for those partial updates, so no page rollover forces a
full rewrite. -/
theorem updateBindings_cache_discipline (i i2 : BindingInputs) (s0 : BindingState)
    (w : List BindingSlot)
    (h : (updateBindings i s0).1 = some w)
    (hc : SameCounts i i2)
    (hroomv : (updateBindings i s0).2.view_heap_pool.page_used +
        viewPartialCount i2 (updateBindings i s0).2 ≤
      (updateBindings i s0).2.view_heap_pool.page_size)
    (hrooms : samplerFullCount i = 0 ∨
      (updateBindings i s0).2.sampler_heap_pool.page_used +
          samplerPartialCount i2 (updateBindings i s0).2 ≤
        (updateBindings i s0).2.sampler_heap_pool.page_size) :
    (updateBindings i (updateBindings i s0).2).1 = some [] ∧
    (updateBindings i2 (updateBindings i s0).2).1 =
      some (viewSlotOrder.filter (contentDiffers i i2) ++
        samplerSlotOrder.filter (contentDiffers i i2)) := by
  have hm := updateBindings_success_state i s0 w h
  constructor
  · have hz1 := viewPartialCount_self_zero i _ hm
    have hz2 := samplerPartialCount_self_zero i _ hm
    have h1 := updateBindings_second i i _ hm ⟨rfl, rfl, rfl, rfl⟩
      (by rw [hz1]; simpa using hm.view_used_le)
      (by by_cases hsf : samplerFullCount i = 0
          · exact Or.inl hsf
          · right
            rw [hz2]
            simpa using (hm.samp_pool hsf).2.1)
    rw [h1]
    have hf : ∀ (l : List BindingSlot), l.filter (contentDiffers i i) = [] := by
      intro l
      induction l with
      | nil => rfl
      | cons a t ih => simp [List.filter_cons, contentDiffers_self, ih]
    rw [hf, hf]
    rfl
  · exact updateBindings_second i i2 _ hm hc hroomv hrooms

/-- Concrete inputs for the C8 witness: both stages use textures and samplers. -/
def c8_inputs : BindingInputs where
  address_system := 11
  address_float_vertex := 12
  address_float_pixel := 13
  address_bool_loop := 14
  address_fetch := 15
  texture_hash_vertex := 21
  texture_hash_pixel := 22
  sampler_hash_vertex := 23
  sampler_hash_pixel := 24
  texture_count_vertex := 2
  texture_count_pixel := 3
  sampler_count_vertex := 1
  sampler_count_pixel := 2

/-- The C8 witness inputs with only the pixel float-constants address changed. -/
def c8_inputs2 : BindingInputs := { c8_inputs with address_float_pixel := 99 }

/-- A fresh binding-cache state for the C8 witness: everything stale, empty pages. -/
def c8_start : BindingState where
  cbuffer_bindings_system := ⟨0, false⟩
  cbuffer_bindings_float_vertex := ⟨0, false⟩
  cbuffer_bindings_float_pixel := ⟨0, false⟩
  cbuffer_bindings_bool_loop := ⟨0, false⟩
  cbuffer_bindings_fetch := ⟨0, false⟩
  texture_bindings_written_vertex := false
  texture_bindings_written_pixel := false
  current_texture_bindings_hash_vertex := 0
  current_texture_bindings_hash_pixel := 0
  samplers_written_vertex := false
  samplers_written_pixel := false
  current_samplers_hash_vertex := 0
  current_samplers_hash_pixel := 0
  draw_view_heap_index := 0
  draw_sampler_heap_index := 0
  view_heap_pool := ⟨0, 64, 0⟩
  sampler_heap_pool := ⟨0, 16, 0⟩

/-- The slots written by the first C8 witness update: all nine present slots. -/
def c8_writes : List BindingSlot :=
  [.systemConstants, .floatConstantsVertex, .floatConstantsPixel, .boolLoopConstants,
   .fetchConstants, .texturesVertex, .texturesPixel, .samplersVertex, .samplersPixel]

/-- Witness for C8: after a first update writes every slot, an identical repeat writes
nothing, and changing only the pixel float-constants address triggers exactly that
slot's partial update. -/
theorem updateBindings_cache_discipline_witness :
    ((updateBindings c8_inputs c8_start).1 = some c8_writes ∧
      SameCounts c8_inputs c8_inputs2) ∧
    (updateBindings c8_inputs (updateBindings c8_inputs c8_start).2).1 = some [] ∧
    (updateBindings c8_inputs2 (updateBindings c8_inputs c8_start).2).1 =
      some [BindingSlot.floatConstantsPixel] :=
  ⟨⟨by decide, ⟨rfl, rfl, rfl, rfl⟩⟩,
   (updateBindings_cache_discipline c8_inputs c8_inputs2 c8_start c8_writes (by decide)
      ⟨rfl, rfl, rfl, rfl⟩ (by decide) (by decide)).1,
   ((updateBindings_cache_discipline c8_inputs c8_inputs2 c8_start c8_writes (by decide)
      ⟨rfl, rfl, rfl, rfl⟩ (by decide) (by decide)).2).trans (by decide)⟩

end Xenia
